import Mathlib

/-!
Verification of the route/mission optimization engine of the
`odoo-transport-management` module, shallowly embedded from
`src/models/ai_analyst_service.py` and `src/models/bulk_mission_wizard.py`.

Modelling conventions:
* Python floats are modelled by `Rat`.  The engine only adds, multiplies,
  divides and compares distances, so rational arithmetic is an exact model.
* The loosely typed destination / source / vehicle dictionaries are
  modelled by records whose fields carry the `0` / empty-string sentinel
  used by the code (`d.get('latitude', 0)` etc.).
* The distance matrix is the Python dict keyed by strings `"i-j"`,
  modelled as an association list keyed by pairs `(i, j)`; `mlookup`
  mirrors `key in matrix` followed by `matrix[key]`.
* The Haversine primitive `_haversine_distance(lat1, lon1, lat2, lon2)`
  is pure float trigonometry; it is kept abstract as a parameter
  `hav : Rat → Rat → Rat → Rat → Rat`, and every theorem about code that
  calls it is proved for an arbitrary such primitive.
* The OSRM road-routing HTTP call is an external collaborator; the
  builder takes its (optional) parsed response as an explicit argument.
  `none` models every total-failure mode (non-200 status, timeout,
  malformed payload), and a response whose `code` is not `"Ok"` models
  the rejected-payload mode.  The Python `try`/`except` that converts
  any in-flight exception into the Haversine fallback is modelled by the
  corresponding fallback branches (the Lean functions are total, which
  matches the code never propagating a service error to its caller).
* `random.sample` in `_cluster_destinations` is modelled by an explicit
  `sample` argument; `isValidSample` characterises the values the Python
  RNG can produce for it.
-/

namespace Transport

open List

set_option maxRecDepth 40000

/-- A bare geographic point as consumed by the distance-matrix builder
(`point.get('latitude', 0)` / `point.get('longitude', 0)`). -/
structure Pt where
  latitude : Rat
  longitude : Rat
  deriving DecidableEq, Repr

instance : Inhabited Pt := ⟨⟨0, 0⟩⟩

/-- A mission source (identity plus coordinates). -/
structure Src where
  id : Nat
  name : String
  latitude : Rat
  longitude : Rat
  deriving DecidableEq, Repr

/-- A destination record: identity, coordinates, cargo profile and
mission type, mirroring the dict fields the engine reads. -/
structure Dest where
  id : Nat
  name : String
  latitude : Rat
  longitude : Rat
  total_weight : Rat
  total_volume : Rat
  mission_type : String
  deriving DecidableEq, Repr

/-- A vehicle record (capacity limits, as read by the splitter). -/
structure Vehicle where
  id : Nat
  max_payload : Rat
  cargo_volume : Rat
  deriving DecidableEq, Repr

/-- One value of the distance-matrix dict:
`{'distance_km': .., 'duration_hours': .., 'is_osrm': ..}`. -/
structure Entry where
  distance_km : Rat
  duration_hours : Rat
  is_osrm : Bool
  deriving DecidableEq, Repr

/-- The distance matrix: the Python dict `{f"{i}-{j}": entry}` as an
association list keyed by `(i, j)`. -/
abbrev DMatrix : Type := List ((Nat × Nat) × Entry)

/-- Dict lookup: `matrix[f"{i}-{j}"]` guarded by `key in matrix`. -/
def mlookup (m : DMatrix) (i j : Nat) : Option Entry :=
  match m with
  | [] => none
  | e :: rest => if e.1 = (i, j) then some e.2 else mlookup rest i j

/-! ### Distance-matrix builder (`_calculate_distance_matrix`, `_fallback_distance_matrix`) -/

/-- The doubly nested `for i ... for j ... if i != j` loop that fills the
matrix dict, with `mk i j` the entry computed for the ordered pair. -/
def matrixEntries (mk : Nat → Nat → Entry) (n : Nat) : DMatrix :=
  (List.range n).flatMap fun i =>
    ((List.range n).filter fun j => i ≠ j).map fun j => ((i, j), mk i j)

/-- A Haversine fallback entry: distance from the primitive, duration at
the assumed 50 km/h average speed, not road-routed. -/
def fallbackEntry (hav : Rat → Rat → Rat → Rat → Rat) (p1 p2 : Pt) : Entry :=
  let d := hav p1.latitude p1.longitude p2.latitude p2.longitude
  { distance_km := d, duration_hours := d / 50, is_osrm := false }

/-- `_fallback_distance_matrix`: Haversine entries for every ordered pair
of distinct points of `sources + destinations`. -/
def fallback_distance_matrix (hav : Rat → Rat → Rat → Rat → Rat)
    (sources destinations : List Pt) : DMatrix :=
  let all_points := sources ++ destinations
  matrixEntries
    (fun i j => fallbackEntry hav (all_points.getD i default) (all_points.getD j default))
    all_points.length

/-- The parsed body of a successful OSRM Table API response
(`{code, distances, durations}`, metres and seconds, possibly null). -/
structure OsrmResponse where
  code : String
  distances : List (List (Option Rat))
  durations : List (List (Option Rat))
  deriving DecidableEq, Repr

/-- The entry the success path builds for pair `(i, j)`: OSRM data when
`i < len(distances) and j < len(distances[i]) and distances[i][j] is not
None` (duration `0` when the durations table is smaller), otherwise the
Haversine fallback entry. -/
def osrmPairEntry (hav : Rat → Rat → Rat → Rat → Rat) (resp : OsrmResponse)
    (all_points : List Pt) (i j : Nat) : Entry :=
  match (resp.distances.getD i []).get? j with
  | some (some dm) =>
    let ds : Rat :=
      match (resp.durations.getD i []).get? j with
      | some (some x) => x
      | _ => 0
    { distance_km := dm / 1000, duration_hours := ds / 3600, is_osrm := true }
  | _ => fallbackEntry hav (all_points.getD i default) (all_points.getD j default)

/-- True when some in-range `durations[i][j]` is null while the matching
`distances[i][j]` is not: the Python code then evaluates `None / 3600`,
the `TypeError` is caught by the surrounding `except`, and the whole
matrix falls back to Haversine. -/
def osrmDurationRaises (resp : OsrmResponse) (n : Nat) : Bool :=
  (List.range n).any fun i =>
    (List.range n).any fun j =>
      i ≠ j &&
      (match (resp.distances.getD i []).get? j with
       | some (some _) =>
         (match (resp.durations.getD i []).get? j with
          | some none => true
          | _ => false)
       | _ => false)

/-- `_calculate_distance_matrix`: filter the points with valid (non-zero)
coordinates; with fewer than two valid points, or on any total service
failure (`response = none`), or a response whose code is not `"Ok"`, or
an in-flight exception, return the full Haversine fallback matrix;
otherwise build an entry for every ordered pair of distinct indices over
ALL points (using per-pair fallback for data missing from the service
tables). -/
def calculate_distance_matrix (hav : Rat → Rat → Rat → Rat → Rat)
    (sources destinations : List Pt) (response : Option OsrmResponse) : DMatrix :=
  let all_points := sources ++ destinations
  let valid_points := all_points.filter fun p => p.latitude ≠ 0 ∧ p.longitude ≠ 0
  if valid_points.length < 2 then fallback_distance_matrix hav sources destinations
  else
    match response with
    | none => fallback_distance_matrix hav sources destinations
    | some resp =>
      if resp.code = "Ok" then
        if osrmDurationRaises resp all_points.length then
          fallback_distance_matrix hav sources destinations
        else
          matrixEntries (osrmPairEntry hav resp all_points) all_points.length
      else fallback_distance_matrix hav sources destinations

/-! ### Route sequencer (`_nearest_neighbor_tsp`, `_two_opt_improvement`) -/

/-- `_destinations_match`: id equality when both ids are truthy, else a
0.001-degree coordinate box when all four coordinates are truthy, else
name equality. -/
def destinations_match (d1 d2 : Dest) : Bool :=
  if d1.id ≠ 0 ∧ d2.id ≠ 0 then d1.id = d2.id
  else if d1.latitude ≠ 0 ∧ d1.longitude ≠ 0 ∧ d2.latitude ≠ 0 ∧ d2.longitude ≠ 0 then
    |d1.latitude - d2.latitude| < 1 / 1000 ∧ |d1.longitude - d2.longitude| < 1 / 1000
  else d1.name = d2.name

/-- The scan over `enumerate(unvisited)` that finds the unvisited
destination of minimum matrix distance from `current` (first strict
minimum wins; candidates with no original index or no matrix entry are
skipped).  The accumulator holds `(distance, dest, index-in-unvisited)`,
`none` standing for the initial `float('inf')`. -/
def findNearestAux (original : List Dest) (m : DMatrix) (sc current : Nat) :
    List Dest → Nat → Option (Rat × Dest × Nat) → Option (Rat × Dest × Nat)
  | [], _, acc => acc
  | d :: ds, i, acc =>
    let acc' :=
      match original.findIdx? (fun o => destinations_match d o) with
      | some oidx =>
        match mlookup m current (sc + oidx) with
        | some e =>
          match acc with
          | none => some (e.distance_km, d, i)
          | some best =>
            if e.distance_km < best.1 then some (e.distance_km, d, i) else acc
        | none => acc
      | none => acc
    findNearestAux original m sc current ds (i + 1) acc'

/-- One full candidate search of the nearest-neighbor loop. -/
def findNearest (original : List Dest) (m : DMatrix) (sc current : Nat)
    (unvisited : List Dest) : Option (Rat × Dest × Nat) :=
  findNearestAux original m sc current unvisited 0 none

/-- The `while unvisited and iteration < 20` loop of
`_nearest_neighbor_tsp`: either append the nearest candidate (advancing
the current position to its absolute matrix index), or — when no
candidate has a usable distance — append all remaining destinations in
order and stop. -/
def nnLoop (original : List Dest) (m : DMatrix) (sc : Nat) :
    Nat → List Dest → List Dest → Nat → List Dest
  | 0, _, route, _ => route
  | fuel + 1, unvisited, route, current =>
    if unvisited = [] then route
    else
      match findNearest original m sc current unvisited with
      | some found =>
        let newCurrent :=
          match original.findIdx? (fun o => destinations_match found.2.1 o) with
          | some oidx => sc + oidx
          | none => current
        nnLoop original m sc fuel (unvisited.eraseIdx found.2.2)
          (route ++ [found.2.1]) newCurrent
      | none => route ++ unvisited

/-- `_nearest_neighbor_tsp`.  The `source` argument is unused by the
Python body (the walk always starts from point index 0); it is kept for
signature fidelity.  The final safety check discards the constructed
route and returns the input order whenever the lengths differ. -/
def nearest_neighbor_tsp (_source : Option Src) (destinations : List Dest)
    (m : DMatrix) (source_count : Nat) : List Dest :=
  if destinations = [] then []
  else
    let route := nnLoop destinations m source_count 20 destinations [] 0
    if route.length ≠ destinations.length then destinations else route

/-- `_calculate_route_distance`: accumulate matrix entries along the
route, keying every hop by `source_count + route.index(dest)` — the
destination's position in the route being measured (first occurrence for
duplicates), not its identity. -/
def calculate_route_distance (route : List Dest) (m : DMatrix) (sc : Nat) : Rat :=
  (route.foldl
    (fun (acc : Rat × Nat) dest =>
      let dest_idx := sc + route.indexOf dest
      match mlookup m acc.2 dest_idx with
      | some e => (acc.1 + e.distance_km, dest_idx)
      | none => (acc.1, dest_idx))
    ((0 : Rat), 0)).1

/-- `route[:i] + route[i:j][::-1] + route[j:]`. -/
def reverseSegment (route : List Dest) (i j : Nat) : List Dest :=
  route.take i ++ ((route.drop i).take (j - i)).reverse ++ route.drop j

/-- The `(i, j)` pairs visited by the 2-opt double loop:
`i ∈ range(1, n-2)`, `j ∈ range(i+1, n)`, skipping `j = i + 1`. -/
def twoOptPairs (n : Nat) : List (Nat × Nat) :=
  (List.range' 1 (n - 3)).flatMap fun i =>
    ((List.range' (i + 1) (n - 1 - i)).filter fun j => j ≠ i + 1).map fun j => (i, j)

/-- One pass of the 2-opt `while` body: try every segment reversal of
`route`, keeping the reversal (and its distance) whenever it strictly
beats the incumbent.  Returns `(best_route, best_distance, improved)`. -/
def twoOptPass (m : DMatrix) (sc : Nat) (route : List Dest) (bd : Rat) :
    List Dest × Rat × Bool :=
  (twoOptPairs route.length).foldl
    (fun acc ij =>
      let new_route := reverseSegment route ij.1 ij.2
      let new_distance := calculate_route_distance new_route m sc
      if new_distance < acc.2.1 then (new_route, new_distance, true) else acc)
    (route, bd, false)

/-- The capped `while improved` loop of `_two_opt_improvement` (at the
top of every pass the Python `route` and `best_route` coincide). -/
def twoOptLoop (m : DMatrix) (sc : Nat) : Nat → List Dest → List Dest
  | 0, r => r
  | fuel + 1, r =>
    let res := twoOptPass m sc r (calculate_route_distance r m sc)
    if res.2.2 then twoOptLoop m sc fuel res.1 else res.1

/-- `_two_opt_improvement`: identity below length 4, otherwise at most
50 improvement passes. -/
def two_opt_improvement (route : List Dest) (m : DMatrix) (sc : Nat) : List Dest :=
  if route.length < 4 then route else twoOptLoop m sc 50 route

/-- `_calculate_route_metrics`: distance/duration along the route, each
hop keyed by the destination's first matching index in the caller's
reference list (position only advances when a reference index is
found).  The Python `source` argument is unused by the body. -/
def calculate_route_metrics (destinations : List Dest) (m : DMatrix) (sc : Nat)
    (reference : List Dest) : Rat × Rat :=
  let r :=
    destinations.foldl
      (fun (acc : Rat × Rat × Nat) dest =>
        match reference.findIdx? (fun o => destinations_match dest o) with
        | some oidx =>
          let dest_idx := sc + oidx
          match mlookup m acc.2.2 dest_idx with
          | some e => (acc.1 + e.distance_km, acc.2.1 + e.duration_hours, dest_idx)
          | none => (acc.1, acc.2.1, dest_idx)
        | none => acc)
      ((0 : Rat), (0 : Rat), 0)
  (r.1, r.2.1)

/-- `_calculate_route_efficiency`. -/
def calculate_route_efficiency (total_distance : Rat) (num_destinations : Nat) : Rat :=
  if num_destinations = 0 then 0
  else
    let distance_per_dest := total_distance / (num_destinations : Rat)
    let efficiency : Rat :=
      if distance_per_dest ≤ 20 then 100
      else max 0 (100 - (distance_per_dest - 20) * 2)
    min 100 (max 0 efficiency)

/-! ### Cargo analysis and strategy selection
(`_analyze_cargo_requirements`, `_determine_routing_strategy`) -/

/-- Python `max` of a nonempty numeric list (0 is never consulted on an
empty list by the callers below). -/
def listMax : List Rat → Rat
  | [] => 0
  | x :: xs => xs.foldl max x

/-- Python `min` of a nonempty numeric list. -/
def listMin : List Rat → Rat
  | [] => 0
  | x :: xs => xs.foldl min x

/-- `max(gen) if vehicles else default`. -/
def maxOr (l : List Rat) (d : Rat) : Rat :=
  match l with
  | [] => d
  | x :: xs => xs.foldl max x

/-- The record returned by `_analyze_cargo_requirements`. -/
structure CargoAnalysis where
  total_weight : Rat
  total_volume : Rat
  pickup_count : Nat
  delivery_count : Nat
  destination_count : Nat
  geographical_spread : Rat
  deriving DecidableEq, Repr

/-- `_analyze_cargo_requirements`: totals, counts and the geographic
spread — the average of the latitude range and the longitude range,
each computed over the destinations whose respective coordinate is
truthy (non-zero); `0` when either filtered list is empty. -/
def analyze_cargo_requirements (destinations : List Dest) : CargoAnalysis :=
  let lats := (destinations.filter fun d => d.latitude ≠ 0).map (·.latitude)
  let lngs := (destinations.filter fun d => d.longitude ≠ 0).map (·.longitude)
  { total_weight := (destinations.map (·.total_weight)).sum
    total_volume := (destinations.map (·.total_volume)).sum
    pickup_count := (destinations.filter fun d => d.mission_type = "pickup").length
    delivery_count := (destinations.filter fun d => d.mission_type = "delivery").length
    destination_count := destinations.length
    geographical_spread :=
      if lats ≠ [] ∧ lngs ≠ [] then
        ((listMax lats - listMin lats) + (listMax lngs - listMin lngs)) / 2
      else 0 }

/-- The `{strategy, reason}` part of `_determine_routing_strategy`'s
result dict. -/
structure StrategyResult where
  strategy : String
  reason : String
  deriving DecidableEq, Repr

/-- `_determine_routing_strategy`: the decision chain over the cargo
analysis and the fleet (its `sources`, `destinations` and matrix
arguments are unused by the Python body). -/
def determine_routing_strategy (cargo_analysis : CargoAnalysis)
    (vehicles : List Vehicle) : StrategyResult :=
  let max_vehicle_weight := maxOr (vehicles.map (·.max_payload)) 25000
  let max_vehicle_volume := maxOr (vehicles.map (·.cargo_volume)) 90
  if cargo_analysis.destination_count ≤ 3 ∧
      cargo_analysis.total_weight ≤ max_vehicle_weight * 0.8 ∧
      cargo_analysis.total_volume ≤ max_vehicle_volume * 0.8 then
    { strategy := "single_optimized_route"
      reason := "Small cargo load with few destinations - single route is most efficient" }
  else if cargo_analysis.geographical_spread < 0.5 then
    { strategy := "single_optimized_route"
      reason := "Destinations are geographically close - single route optimal" }
  else if cargo_analysis.total_weight > max_vehicle_weight ∨
      cargo_analysis.total_volume > max_vehicle_volume then
    { strategy := "capacity_based_splitting"
      reason := "Cargo exceeds single vehicle capacity - split by weight/volume" }
  else if cargo_analysis.geographical_spread > 1 then
    { strategy := "geographical_clustering"
      reason := "Destinations are geographically dispersed - cluster by location" }
  else
    { strategy := "balanced_optimization"
      reason := "Mixed factors - use balanced approach" }

/-! ### Route construction (`_create_*_routes`, `_cluster_destinations`,
`_find_best_source_for_cluster`, `_split_route_by_capacity`) -/

/-- One produced route dict.  Fields the Python dicts omit on some paths
(`cargo_weight`, `cargo_volume`, `cluster_id`) default to the falsy 0. -/
structure Route where
  source : Option Src
  destinations : List Dest
  total_distance : Rat
  total_duration : Rat
  optimization_method : String
  cargo_weight : Rat := 0
  cargo_volume : Rat := 0
  cluster_id : Nat := 0
  efficiency_score : Rat := 0
  deriving DecidableEq, Repr

/-- `_create_single_optimized_route`: nearest-neighbor then 2-opt over
all destinations from the first source. -/
def create_single_optimized_route (sources : List Src) (destinations : List Dest)
    (m : DMatrix) : List Route :=
  if sources = [] ∨ destinations = [] then []
  else
    let source := sources.head?
    let sc := sources.length
    let route_sequence := nearest_neighbor_tsp source destinations m sc
    let improved_sequence := two_opt_improvement route_sequence m sc
    let metrics := calculate_route_metrics improved_sequence m sc destinations
    [{ source := source
       destinations := improved_sequence
       total_distance := metrics.1
       total_duration := metrics.2
       optimization_method := "single_route_tsp_2opt"
       efficiency_score := calculate_route_efficiency metrics.1 improved_sequence.length }]

/-- The inner selection scan of `_create_capacity_based_routes`: walk the
remaining pool once, taking every destination that still fits the running
weight/volume, and return `(taken, rest, final_weight, final_volume)`. -/
def selectFit (maxW maxV : Rat) : List Dest → Rat → Rat → List Dest × List Dest × Rat × Rat
  | [], cw, cv => ([], [], cw, cv)
  | d :: ds, cw, cv =>
    if cw + d.total_weight ≤ maxW ∧ cv + d.total_volume ≤ maxV then
      let r := selectFit maxW maxV ds (cw + d.total_weight) (cv + d.total_volume)
      (d :: r.1, r.2.1, r.2.2.1, r.2.2.2)
    else
      let r := selectFit maxW maxV ds cw cv
      (r.1, d :: r.2.1, r.2.2.1, r.2.2.2)

/-- The per-vehicle loop of `_create_capacity_based_routes`.  Note that
vehicles are consumed once and leftover destinations are silently
abandoned when the fleet list ends. -/
def capLoop (sources : List Src) (m : DMatrix) :
    List Vehicle → List Dest → Nat → List Route
  | [], _, _ => []
  | v :: vs, remaining, source_idx =>
    if remaining = [] then []
    else
      let sel := selectFit v.max_payload v.cargo_volume remaining 0 0
      if sel.1 = [] then capLoop sources m vs sel.2.1 source_idx
      else
        let source := sources.get? (source_idx % sources.length)
        let sc := sources.length
        let seq0 := nearest_neighbor_tsp source sel.1 m sc
        let seq := two_opt_improvement seq0 m sc
        let metrics := calculate_route_metrics seq m sc sel.1
        { source := source
          destinations := seq
          total_distance := metrics.1
          total_duration := metrics.2
          optimization_method := "capacity_based_tsp"
          cargo_weight := sel.2.2.1
          cargo_volume := sel.2.2.2
          efficiency_score := calculate_route_efficiency metrics.1 seq.length }
          :: capLoop sources m vs sel.2.1 (source_idx + 1)

/-- `_create_capacity_based_routes`. -/
def create_capacity_based_routes (sources : List Src) (destinations : List Dest)
    (m : DMatrix) (vehicles : List Vehicle) : List Route :=
  capLoop sources m vehicles destinations 0

/-- The argmin scan assigning one destination to the index of its
nearest centroid (strict improvement over an initial `inf`). -/
def bestClusterIdx (hav : Rat → Rat → Rat → Rat → Rat) (d : Dest)
    (centroids : List (Rat × Rat)) : Nat :=
  (centroids.enum.foldl
    (fun (acc : Nat × Option Rat) ic =>
      let dist := hav d.latitude d.longitude ic.2.1 ic.2.2
      match acc.2 with
      | none => (ic.1, some dist)
      | some md => if dist < md then (ic.1, some dist) else acc)
    (0, none)).1

/-- One assignment round: cluster `c` receives, in input order, the
destinations whose nearest centroid is `c`. -/
def assignClusters (hav : Rat → Rat → Rat → Rat → Rat) (destinations : List Dest)
    (centroids : List (Rat × Rat)) (k : Nat) : List (List Dest) :=
  (List.range k).map fun c =>
    destinations.filter fun d => bestClusterIdx hav d centroids = c

/-- Centroid recomputation: coordinate means of nonempty clusters, the
previous centroid for empty ones. -/
def updateCentroids (clusters : List (List Dest)) (old : List (Rat × Rat)) :
    List (Rat × Rat) :=
  clusters.enum.map fun ic =>
    if ic.2 = [] then old.getD ic.1 (0, 0)
    else
      (((ic.2.map (·.latitude)).sum) / (ic.2.length : Rat),
       ((ic.2.map (·.longitude)).sum) / (ic.2.length : Rat))

/-- The fixed 10 k-means rounds (the clusters of the final round are
returned). -/
def kmeansRounds (hav : Rat → Rat → Rat → Rat → Rat) (destinations : List Dest)
    (k : Nat) : Nat → List (Rat × Rat) → List (List Dest) → List (List Dest)
  | 0, _, clusters => clusters
  | r + 1, centroids, _ =>
    let clusters := assignClusters hav destinations centroids k
    kmeansRounds hav destinations k r (updateCentroids clusters centroids) clusters

/-- `_cluster_destinations`: singleton clusters when the pool is no
larger than `k`, otherwise 10 k-means rounds seeded with the centroids
drawn by `random.sample(destinations, k)` — passed here as the explicit
`sample` argument — with empty clusters dropped at the end. -/
def cluster_destinations (hav : Rat → Rat → Rat → Rat → Rat)
    (destinations : List Dest) (num_clusters : Nat) (sample : List Dest) :
    List (List Dest) :=
  if destinations.length ≤ num_clusters then destinations.map fun d => [d]
  else
    (kmeansRounds hav destinations num_clusters 10
        (sample.map fun d => (d.latitude, d.longitude)) []).filter
      fun c => c ≠ []

/-- Characterises the lists `random.sample(destinations, k)` can return:
`k` pairwise-distinct positions of the pool, in any order (for a
duplicate-free pool this is exactly: `k` distinct elements). -/
def isValidSample (destinations sample : List Dest) (k : Nat) : Prop :=
  sample.length = k ∧ sample.Nodup ∧ ∀ x ∈ sample, x ∈ destinations

instance (destinations sample : List Dest) (k : Nat) :
    Decidable (isValidSample destinations sample k) := by
  unfold isValidSample
  infer_instance

/-- The per-source accumulated distance of
`_find_best_source_for_cluster` (hops keyed by position in the cluster
list, missing entries skipped). -/
def clusterSourceTotal (m : DMatrix) (sc : Nat) (cluster : List Dest)
    (source_idx : Nat) : Rat :=
  cluster.foldl
    (fun acc dest =>
      match mlookup m source_idx (sc + cluster.indexOf dest) with
      | some e => acc + e.distance_km
      | none => acc)
    0

/-- `_find_best_source_for_cluster`: the source minimising the total
matrix distance to the cluster (first strict minimum wins; `sources[0]`
for an empty cluster, `None` for an empty source list). -/
def find_best_source_for_cluster (sources : List Src) (cluster : List Dest)
    (m : DMatrix) : Option Src :=
  if sources = [] ∨ cluster = [] then sources.head?
  else
    (sources.enum.foldl
      (fun (acc : Option Src × Option Rat) sp =>
        let total := clusterSourceTotal m sources.length cluster sp.1
        match acc.2 with
        | none => (some sp.2, some total)
        | some mt => if total < mt then (some sp.2, some total) else acc)
      (sources.head?, none)).1

/-- The route `_create_geographical_cluster_routes` builds for one
nonempty cluster: best-fit source, nearest-neighbor plus 2-opt sequence,
metrics against the cluster list. -/
def clusterRouteFor (sources : List Src) (m : DMatrix) (cluster_idx : Nat)
    (cluster : List Dest) : Route :=
  let best_source := find_best_source_for_cluster sources cluster m
  let sc := sources.length
  let seq0 := nearest_neighbor_tsp best_source cluster m sc
  let seq := two_opt_improvement seq0 m sc
  let metrics := calculate_route_metrics seq m sc cluster
  { source := best_source
    destinations := seq
    total_distance := metrics.1
    total_duration := metrics.2
    optimization_method := "geographical_cluster_" ++ toString (cluster_idx + 1)
    cluster_id := cluster_idx + 1
    efficiency_score := calculate_route_efficiency metrics.1 seq.length }

/-- `_create_geographical_cluster_routes`: k-means over the destinations
(`k = min(len(vehicles), len(destinations), 4)`), each nonempty cluster
sequenced from its best-fit source. -/
def create_geographical_cluster_routes (hav : Rat → Rat → Rat → Rat → Rat)
    (sources : List Src) (destinations : List Dest) (m : DMatrix)
    (vehicles : List Vehicle) (sample : List Dest) : List Route :=
  let num_clusters := min (min vehicles.length destinations.length) 4
  let clusters := cluster_destinations hav destinations num_clusters sample
  clusters.enum.filterMap fun cc =>
    if cc.2 = [] then none else some (clusterRouteFor sources m cc.1 cc.2)

/-- Python `max(vehicles, key=max_payload)` — first maximal element. -/
def maxByPayload : List Vehicle → Option Vehicle
  | [] => none
  | v :: vs =>
    match maxByPayload vs with
    | none => some v
    | some b => if b.max_payload > v.max_payload then some b else some v

/-- The grouping scan of `_split_route_by_capacity`: accumulate the
sequenced destinations into consecutive groups, flushing the current
group whenever the next destination would overflow the largest vehicle.
Returns the groups with their accumulated weight and volume. -/
def splitGroups (maxW maxV : Rat) :
    List Dest → List Dest → Rat → Rat → List (List Dest × Rat × Rat)
  | [], cur, cw, cv => if cur = [] then [] else [(cur, cw, cv)]
  | d :: ds, cur, cw, cv =>
    if cw + d.total_weight ≤ maxW ∧ cv + d.total_volume ≤ maxV then
      splitGroups maxW maxV ds (cur ++ [d]) (cw + d.total_weight) (cv + d.total_volume)
    else
      (if cur = [] then [] else [(cur, cw, cv)]) ++
        splitGroups maxW maxV ds [d] d.total_weight d.total_volume

/-- The route `_split_route_by_capacity` builds for one flushed group
(the group at the last index — the one flushed after the loop — is
tagged `capacity_split_final`, the others `capacity_split`); only
nearest-neighbor (no 2-opt) re-sequences a group. -/
def splitRouteFor (source : Option Src) (m : DMatrix) (source_count : Nat)
    (group_count : Nat) (ig : Nat × List Dest × Rat × Rat) : Route :=
  let seq := nearest_neighbor_tsp source ig.2.1 m source_count
  let metrics := calculate_route_metrics seq m source_count ig.2.1
  { source := source
    destinations := seq
    total_distance := metrics.1
    total_duration := metrics.2
    optimization_method :=
      if ig.1 = group_count - 1 then "capacity_split_final" else "capacity_split"
    cargo_weight := ig.2.2.1
    cargo_volume := ig.2.2.2
    efficiency_score := calculate_route_efficiency metrics.1 seq.length }

/-- `_split_route_by_capacity`: split one oversized route by the largest
vehicle's capacity. -/
def split_route_by_capacity (route : Route) (vehicles : List Vehicle)
    (m : DMatrix) (source_count : Nat) : List Route :=
  let max_weight := match maxByPayload vehicles with
    | some v => v.max_payload
    | none => 25000
  let max_volume := match maxByPayload vehicles with
    | some v => v.cargo_volume
    | none => 90
  let groups := splitGroups max_weight max_volume route.destinations [] 0 0
  groups.enum.map (splitRouteFor route.source m source_count groups.length)

/-- `_create_balanced_routes`: geographic clustering first, then any
cluster no single vehicle can carry is split by capacity. -/
def create_balanced_routes (hav : Rat → Rat → Rat → Rat → Rat)
    (sources : List Src) (destinations : List Dest) (m : DMatrix)
    (vehicles : List Vehicle) (sample : List Dest) : List Route :=
  let geo_routes := create_geographical_cluster_routes hav sources destinations m vehicles sample
  geo_routes.flatMap fun route =>
    let route_weight := (route.destinations.map (·.total_weight)).sum
    let route_volume := (route.destinations.map (·.total_volume)).sum
    match vehicles.find? fun v =>
        route_weight ≤ v.max_payload ∧ route_volume ≤ v.cargo_volume with
    | some _ => [route]
    | none => split_route_by_capacity route vehicles m sources.length

/-- `_create_optimized_routes`: dispatch on the selected strategy. -/
def create_optimized_routes (hav : Rat → Rat → Rat → Rat → Rat)
    (sources : List Src) (destinations : List Dest) (m : DMatrix)
    (routing_strategy : StrategyResult) (vehicles : List Vehicle)
    (sample : List Dest) : List Route :=
  if routing_strategy.strategy = "single_optimized_route" then
    create_single_optimized_route sources destinations m
  else if routing_strategy.strategy = "capacity_based_splitting" then
    create_capacity_based_routes sources destinations m vehicles
  else if routing_strategy.strategy = "geographical_clustering" then
    create_geographical_cluster_routes hav sources destinations m vehicles sample
  else
    create_balanced_routes hav sources destinations m vehicles sample

/-! ### Cost model (`bulk_mission_wizard._calculate_costs`) -/

/-- The configured `transport.cost.parameters` record (Odoo float fields
default to the falsy `0.0` when unset). -/
structure CostParams where
  fuel_price_per_liter : Rat
  driver_cost_per_hour : Rat
  maintenance_cost_per_km : Rat
  toll_cost_per_km : Rat
  base_mission_cost : Rat
  deriving DecidableEq, Repr

/-- The detailed dict returned by `_calculate_costs(..., with_details=True)`. -/
structure CostBreakdown where
  total_cost : Rat
  base_cost : Rat
  fuel_cost : Rat
  driver_cost : Rat
  maintenance_cost : Rat
  toll_cost : Rat
  fuel_used_liters : Rat
  deriving DecidableEq, Repr

/-- Python `round(x, 2)` (round half to even at two decimals). -/
def round2 (x : Rat) : Rat :=
  let y := x * 100
  let f : Int := ⌊y⌋
  let r := y - (f : Rat)
  let n : Int :=
    if r < 1 / 2 then f
    else if (1 / 2 : Rat) < r then f + 1
    else if f % 2 = 0 then f else f + 1
  (n : Rat) / 100

/-- Python's `value or default` on a float parameter. -/
def orDefault (x d : Rat) : Rat := if x = 0 then d else x

/-- The effective fuel consumption: the value supplied by the vehicle
data (or, in the code, the vehicle record looked up from it) when truthy,
else the documented 25 L/100km default. -/
def effFuelConsumption (vehicle_fuel : Option Rat) : Rat :=
  let fc := match vehicle_fuel with
    | some v => v
    | none => 0
  if fc = 0 then 25 else fc

/-- `_calculate_costs` with `with_details=True`: component costs from the
configured parameters (each falling back to its documented default when
falsy) and the vehicle fuel consumption, every returned figure rounded to
two decimals, the total computed from the unrounded components. -/
def calculate_costs (distance_km duration_hours : Rat) (vehicle_fuel : Option Rat)
    (params : CostParams) : CostBreakdown :=
  let fuel_price_per_liter := orDefault params.fuel_price_per_liter 12.5
  let driver_cost_per_hour := orDefault params.driver_cost_per_hour 20
  let maintenance_cost_per_km := orDefault params.maintenance_cost_per_km 0.5
  let toll_cost_per_km := orDefault params.toll_cost_per_km 0
  let base_mission_cost := orDefault params.base_mission_cost 0
  let fuel_consumption := effFuelConsumption vehicle_fuel
  let fuel_used_liters := distance_km * (fuel_consumption / 100)
  let fuel_cost := fuel_used_liters * fuel_price_per_liter
  let driver_cost := duration_hours * driver_cost_per_hour
  let maintenance_cost := distance_km * maintenance_cost_per_km
  let toll_cost := distance_km * toll_cost_per_km
  let total_cost := base_mission_cost + fuel_cost + driver_cost + maintenance_cost + toll_cost
  { total_cost := round2 total_cost
    base_cost := round2 base_mission_cost
    fuel_cost := round2 fuel_cost
    driver_cost := round2 driver_cost
    maintenance_cost := round2 maintenance_cost
    toll_cost := round2 toll_cost
    fuel_used_liters := round2 fuel_used_liters }

/-! ### Spec-side definitions (for the refinement claims) -/

/-- Modelled from the spec: the geographic spread exactly as the spec
words it — "the average of the latitude range and longitude range over
destinations", with no validity filtering of the coordinates. -/
def specGeographicSpread (destinations : List Dest) : Rat :=
  if destinations = [] then 0
  else
    ((listMax (destinations.map (·.latitude)) - listMin (destinations.map (·.latitude))) +
      (listMax (destinations.map (·.longitude)) - listMin (destinations.map (·.longitude)))) / 2

/-- Modelled from the spec: the splitter's decision tree exactly as the
spec states it, evaluated in order, using `specGeographicSpread`. -/
def specRoutingStrategy (destinations : List Dest) (vehicles : List Vehicle) : String :=
  let largest_payload := maxOr (vehicles.map (·.max_payload)) 25000
  let largest_volume := maxOr (vehicles.map (·.cargo_volume)) 90
  let total_weight := (destinations.map (·.total_weight)).sum
  let total_volume := (destinations.map (·.total_volume)).sum
  if destinations.length ≤ 3 ∧ total_weight ≤ largest_payload * 0.8 ∧
      total_volume ≤ largest_volume * 0.8 then "single_optimized_route"
  else if specGeographicSpread destinations < 0.5 then "single_optimized_route"
  else if total_weight > largest_payload ∨ total_volume > largest_volume then
    "capacity_based_splitting"
  else if specGeographicSpread destinations > 1 then "geographical_clustering"
  else "balanced_optimization"

/-- The spread of the amended claim: ranges taken over the non-zero
latitudes (respectively longitudes) only, `0` when either list is
empty. -/
def amendedGeographicSpread (destinations : List Dest) : Rat :=
  let lats := (destinations.map (·.latitude)).filter (· ≠ 0)
  let lngs := (destinations.map (·.longitude)).filter (· ≠ 0)
  if lats ≠ [] ∧ lngs ≠ [] then
    ((listMax lats - listMin lats) + (listMax lngs - listMin lngs)) / 2
  else 0

/-- The decision tree of the amended claim: as the spec states it, but
with `amendedGeographicSpread`. -/
def amendedRoutingStrategy (destinations : List Dest) (vehicles : List Vehicle) : String :=
  let largest_payload := maxOr (vehicles.map (·.max_payload)) 25000
  let largest_volume := maxOr (vehicles.map (·.cargo_volume)) 90
  let total_weight := (destinations.map (·.total_weight)).sum
  let total_volume := (destinations.map (·.total_volume)).sum
  if destinations.length ≤ 3 ∧ total_weight ≤ largest_payload * 0.8 ∧
      total_volume ≤ largest_volume * 0.8 then "single_optimized_route"
  else if amendedGeographicSpread destinations < 0.5 then "single_optimized_route"
  else if total_weight > largest_payload ∨ total_volume > largest_volume then
    "capacity_based_splitting"
  else if amendedGeographicSpread destinations > 1 then "geographical_clustering"
  else "balanced_optimization"

/-! ## Lemmas about the distance-matrix builder -/

theorem mlookup_append (m₁ m₂ : DMatrix) (i j : Nat) :
    mlookup (m₁ ++ m₂) i j =
      match mlookup m₁ i j with
      | some e => some e
      | none => mlookup m₂ i j := by
  induction m₁ with
  | nil => rfl
  | cons e rest ih =>
    by_cases h : e.1 = (i, j) <;> simp [mlookup, h, ih]

theorem mlookup_map_row (i : Nat) (f : Nat → Entry) (js : List Nat) (i' j' : Nat) :
    mlookup (js.map fun j => ((i, j), f j)) i' j' =
      if i' = i ∧ j' ∈ js then some (f j') else none := by
  induction js with
  | nil => simp [mlookup]
  | cons j js ih =>
    simp only [List.map_cons, mlookup]
    by_cases h : ((i, j) : Nat × Nat) = (i', j')
    · obtain ⟨h1, h2⟩ := Prod.mk.injEq .. ▸ h
      subst h1; subst h2
      simp
    · rw [if_neg h, ih]
      by_cases hi : i' = i
      · subst hi
        have hj : j' ≠ j := fun hj => h (by rw [hj])
        simp [hj]
      · simp [hi]

theorem opt_match_if (c : Prop) [Decidable c] (x : Entry) (o : Option Entry) :
    (match (if c then some x else none) with
     | some e => some e
     | none => o) = if c then some x else o := by
  by_cases h : c <;> simp [h]

theorem mlookup_flatMap_rows (mk : Nat → Nat → Entry) (n : Nat) (is : List Nat)
    (i j : Nat) :
    mlookup
        (is.flatMap fun i0 =>
          ((List.range n).filter fun j0 => i0 ≠ j0).map fun j0 => ((i0, j0), mk i0 j0))
        i j =
      if i ∈ is ∧ j < n ∧ i ≠ j then some (mk i j) else none := by
  induction is with
  | nil => simp [mlookup]
  | cons i0 is ih =>
    rw [List.flatMap_cons, mlookup_append, mlookup_map_row, ih, opt_match_if]
    simp only [List.mem_filter, List.mem_range, List.mem_cons, decide_eq_true_eq]
    by_cases h1 : i = i0
    · subst h1
      by_cases h2 : j < n ∧ i ≠ j
      · rw [if_pos ⟨rfl, h2.1, h2.2⟩, if_pos ⟨Or.inl rfl, h2⟩]
      · rw [if_neg (fun hc => h2 ⟨hc.2.1, hc.2.2⟩),
          if_neg (fun hc => h2 ⟨hc.2.1, hc.2.2⟩),
          if_neg (fun hc => h2 hc.2)]
    · rw [if_neg (fun hc => h1 hc.1)]
      by_cases h2 : i ∈ is ∧ j < n ∧ i ≠ j
      · rw [if_pos h2, if_pos ⟨Or.inr h2.1, h2.2⟩]
      · rw [if_neg h2, if_neg (fun hc => h2 ⟨hc.1.resolve_left h1, hc.2⟩)]

theorem mlookup_matrixEntries (mk : Nat → Nat → Entry) (n i j : Nat) :
    mlookup (matrixEntries mk n) i j =
      if i < n ∧ j < n ∧ i ≠ j then some (mk i j) else none := by
  unfold matrixEntries
  rw [mlookup_flatMap_rows]
  simp [List.mem_range]

theorem filter_ne_range_length (n i : Nat) (hi : i < n) :
    ((List.range n).filter fun j => i ≠ j).length = n - 1 := by
  induction n with
  | zero => omega
  | succ n ih =>
    rw [List.range_succ, List.filter_append]
    by_cases h : i = n
    · subst h
      have hall : (List.range i).filter (fun j => i ≠ j) = List.range i := by
        apply List.filter_eq_self.mpr
        intro a ha
        simp only [decide_eq_true_eq]
        have := List.mem_range.mp ha
        omega
      have hone : ([i].filter fun j => i ≠ j) = [] := by simp
      rw [hall, hone, List.append_nil, List.length_range]
      omega
    · have hlt : i < n := by omega
      have hone : ([n].filter fun j => i ≠ j) = [n] := by simp [h]
      rw [hone, List.length_append, ih hlt, List.length_singleton]
      omega

theorem length_matrixEntries (mk : Nat → Nat → Entry) (n : Nat) :
    (matrixEntries mk n).length = n * (n - 1) := by
  unfold matrixEntries
  rw [List.length_flatMap]
  have hmap : List.map
      (List.length ∘ fun i => ((List.range n).filter fun j => i ≠ j).map
        fun j => ((i, j), mk i j))
      (List.range n) =
      (List.range n).map fun _ => n - 1 := by
    apply List.map_congr_left
    intro i hi
    simp only [Function.comp_apply, List.length_map]
    exact filter_ne_range_length n i (List.mem_range.mp hi)
  rw [hmap]
  have hrep : List.map (fun _ => n - 1) (List.range n) = List.replicate n (n - 1) := by
    rw [List.map_const', List.length_range]
  rw [hrep, List.sum_replicate, smul_eq_mul]

theorem mem_matrixEntries (mk : Nat → Nat → Entry) (n : Nat)
    (e : (Nat × Nat) × Entry) (he : e ∈ matrixEntries mk n) :
    ∃ i j, i < n ∧ j < n ∧ i ≠ j ∧ e = ((i, j), mk i j) := by
  unfold matrixEntries at he
  simp only [List.mem_flatMap, List.mem_map, List.mem_filter, List.mem_range,
    decide_eq_true_eq] at he
  obtain ⟨i, hi, j, ⟨hj, hij⟩, rfl⟩ := he
  exact ⟨i, j, hi, hj, hij, rfl⟩

theorem calculate_distance_matrix_shape (hav : Rat → Rat → Rat → Rat → Rat)
    (sources destinations : List Pt) (response : Option OsrmResponse) :
    ∃ mk, calculate_distance_matrix hav sources destinations response =
      matrixEntries mk (sources ++ destinations).length := by
  unfold calculate_distance_matrix fallback_distance_matrix
  by_cases h1 :
      (((sources ++ destinations).filter
        fun p => p.latitude ≠ 0 ∧ p.longitude ≠ 0).length) < 2
  · exact ⟨_, by rw [if_pos h1]⟩
  · rw [if_neg h1]
    cases response with
    | none => exact ⟨_, rfl⟩
    | some resp =>
      dsimp only
      by_cases h2 : resp.code = "Ok"
      · rw [if_pos h2]
        by_cases h3 : osrmDurationRaises resp (sources ++ destinations).length = true
        · exact ⟨_, by rw [if_pos h3]⟩
        · exact ⟨_, by rw [if_neg h3]⟩
      · exact ⟨_, by rw [if_neg h2]⟩

/-! ## C3 / C4: matrix completeness and failure fallback -/

/-- A trivial concrete distance primitive for counterexamples. -/
def cHav : Rat → Rat → Rat → Rat → Rat := fun _ _ _ _ => 1

/-- One valid source, one valid destination and one destination with the
(0,0) missing-coordinate sentinel, road service down. -/
def c3Matrix : DMatrix :=
  calculate_distance_matrix cHav [⟨1, 1⟩] [⟨2, 2⟩, ⟨0, 0⟩] none

/-- Claim C3 is false as stated: with one valid source, one valid
destination and one destination lacking valid coordinates (so N = 2
valid points), the builder returns 6 = 3·2 entries, not N×(N−1) = 2, and
the invalid point (index 2) does contribute entries: the code excludes
invalid points only from the road-service request, then fills every
ordered pair over ALL points. -/
theorem matrix_completeness_counterexample :
    ((([(⟨1, 1⟩ : Pt)] ++ [(⟨2, 2⟩ : Pt), ⟨0, 0⟩]).filter
        fun p => p.latitude ≠ 0 ∧ p.longitude ≠ 0).length = 2) ∧
    c3Matrix.length ≠ 2 * (2 - 1) ∧
    (mlookup c3Matrix 0 2).isSome = true ∧
    (mlookup c3Matrix 2 0).isSome = true := by
  decide

/-- Claim C3, amended: for every input the distance-matrix builder
returns exactly M×(M−1) directed entries where M is the TOTAL number of
input points (valid or not) — one entry per ordered pair of distinct
point indices and no self-entries; points lacking valid coordinates are
excluded only from the road-service query, not from matrix
construction. -/
theorem matrix_completeness_all_points (hav : Rat → Rat → Rat → Rat → Rat)
    (sources destinations : List Pt) (response : Option OsrmResponse) :
    (calculate_distance_matrix hav sources destinations response).length =
      (sources ++ destinations).length * ((sources ++ destinations).length - 1) ∧
    ∀ i j,
      (mlookup (calculate_distance_matrix hav sources destinations response) i j).isSome ↔
        (i < (sources ++ destinations).length ∧
          j < (sources ++ destinations).length ∧ i ≠ j) := by
  obtain ⟨mk, hmk⟩ := calculate_distance_matrix_shape hav sources destinations response
  rw [hmk]
  refine ⟨length_matrixEntries _ _, ?_⟩
  intro i j
  rw [mlookup_matrixEntries]
  by_cases h : i < (sources ++ destinations).length ∧
      j < (sources ++ destinations).length ∧ i ≠ j
  · simp [h]
  · simp [h]

/-- Claim C4: on any total road-service failure (no usable response, or
a response whose code is not `"Ok"`) the builder returns exactly the
complete Haversine fallback matrix — M×(M−1) entries, each pair's
distance from the Haversine primitive, duration = distance / 50 km/h,
road-routed flag false everywhere — and the result is empty exactly when
the input has fewer than two points.  (The Lean model is a total
function, matching the code's conversion of every service error into
this fallback rather than a propagated exception.) -/
theorem matrix_failure_fallback (hav : Rat → Rat → Rat → Rat → Rat)
    (sources destinations : List Pt) (response : Option OsrmResponse)
    (hfail : ∀ r, response = some r → r.code ≠ "Ok") :
    calculate_distance_matrix hav sources destinations response =
      fallback_distance_matrix hav sources destinations ∧
    (fallback_distance_matrix hav sources destinations).length =
      (sources ++ destinations).length * ((sources ++ destinations).length - 1) ∧
    (∀ i j, i < (sources ++ destinations).length →
      j < (sources ++ destinations).length → i ≠ j →
      mlookup (fallback_distance_matrix hav sources destinations) i j =
        some (fallbackEntry hav ((sources ++ destinations).getD i default)
          ((sources ++ destinations).getD j default))) ∧
    (∀ e ∈ fallback_distance_matrix hav sources destinations,
      e.2.is_osrm = false ∧ e.2.duration_hours = e.2.distance_km / 50) ∧
    (fallback_distance_matrix hav sources destinations = [] ↔
      (sources ++ destinations).length < 2) := by
  refine ⟨?_, ?_, ?_, ?_, ?_⟩
  · unfold calculate_distance_matrix
    by_cases h1 : (((sources ++ destinations).filter
        fun p => p.latitude ≠ 0 ∧ p.longitude ≠ 0).length) < 2
    · rw [if_pos h1]
    · rw [if_neg h1]
      cases response with
      | none => rfl
      | some r =>
        dsimp only
        rw [if_neg (hfail r rfl)]
  · unfold fallback_distance_matrix
    exact length_matrixEntries _ _
  · intro i j hi hj hij
    unfold fallback_distance_matrix
    rw [mlookup_matrixEntries, if_pos ⟨hi, hj, hij⟩]
  · intro e he
    unfold fallback_distance_matrix at he
    obtain ⟨i, j, _, _, _, rfl⟩ := mem_matrixEntries _ _ _ he
    exact ⟨rfl, rfl⟩
  · unfold fallback_distance_matrix
    rw [← List.length_eq_zero, length_matrixEntries]
    constructor
    · intro h
      rcases Nat.mul_eq_zero.mp h with h | h <;> omega
    · intro h
      have h2 : (sources ++ destinations).length = 0 ∨
          (sources ++ destinations).length - 1 = 0 := by omega
      rcases h2 with h2 | h2
      · rw [h2, Nat.zero_mul]
      · rw [h2, Nat.mul_zero]

/-- Witness for `matrix_failure_fallback` at a concrete failed call. -/
theorem matrix_failure_fallback_witness :
    (∀ r, (none : Option OsrmResponse) = some r → r.code ≠ "Ok") ∧
    calculate_distance_matrix cHav [⟨1, 1⟩] [⟨2, 2⟩] none =
      fallback_distance_matrix cHav [⟨1, 1⟩] [⟨2, 2⟩] :=
  ⟨fun r h => Option.noConfusion h,
    (matrix_failure_fallback cHav [⟨1, 1⟩] [⟨2, 2⟩] none
      (fun r h => Option.noConfusion h)).1⟩

/-! ## Lemmas about the route sequencer -/

theorem findNearestAux_sound (original : List Dest) (m : DMatrix) (sc cur : Nat)
    (C : Dest → Nat → Prop) :
    ∀ (ds : List Dest) (i : Nat) (acc : Option (Rat × Dest × Nat)),
      (∀ r d k, acc = some (r, d, k) → C d k) →
      (∀ t d, ds[t]? = some d → C d (i + t)) →
      ∀ r d k, findNearestAux original m sc cur ds i acc = some (r, d, k) → C d k := by
  intro ds
  induction ds with
  | nil =>
    intro i acc hacc _ r d k h
    exact hacc r d k h
  | cons d0 ds ih =>
    intro i acc hacc hds r d k h
    rw [findNearestAux] at h
    refine ih (i + 1) _ ?_ ?_ r d k h
    · intro r1 d1 k1 hacc'
      have hd0 : C d0 i := by
        have := hds 0 d0 (by simp)
        simpa using this
      rcases h1 : original.findIdx? (fun o => destinations_match d0 o) with _ | oidx
      · rw [h1] at hacc'
        exact hacc r1 d1 k1 hacc'
      · rw [h1] at hacc'
        dsimp only at hacc'
        rcases h2 : mlookup m cur (sc + oidx) with _ | e
        · rw [h2] at hacc'
          exact hacc r1 d1 k1 hacc'
        · rw [h2] at hacc'
          dsimp only at hacc'
          rcases acc with _ | best
          · simp only [Option.some.injEq, Prod.mk.injEq] at hacc'
            obtain ⟨_, h3, h4⟩ := hacc'
            rw [← h3, ← h4]
            exact hd0
          · dsimp only at hacc'
            split_ifs at hacc' with h5
            · simp only [Option.some.injEq, Prod.mk.injEq] at hacc'
              obtain ⟨_, h3, h4⟩ := hacc'
              rw [← h3, ← h4]
              exact hd0
            · exact hacc r1 d1 k1 hacc'
    · intro t d1 ht
      have := hds (t + 1) d1 (by simpa using ht)
      have harith : i + (t + 1) = i + 1 + t := by omega
      rw [harith] at this
      exact this

theorem findNearest_getElem (original : List Dest) (m : DMatrix) (sc cur : Nat)
    (unvisited : List Dest) (r : Rat) (d : Dest) (k : Nat)
    (h : findNearest original m sc cur unvisited = some (r, d, k)) :
    unvisited[k]? = some d := by
  refine findNearestAux_sound original m sc cur
    (fun d k => unvisited[k]? = some d) unvisited 0 none ?_ ?_ r d k h
  · intro _ _ _ hcon
    cases hcon
  · intro t d1 ht
    simpa using ht

theorem perm_cons_eraseIdx {α : Type _} :
    ∀ (l : List α) (k : Nat) (d : α), l[k]? = some d → l.Perm (d :: l.eraseIdx k) := by
  intro l
  induction l with
  | nil =>
    intro k d h
    simp at h
  | cons a tl ih =>
    intro k d h
    cases k with
    | zero =>
      rw [List.getElem?_cons_zero, Option.some.injEq] at h
      subst h
      rw [List.eraseIdx_cons_zero]
    | succ k =>
      rw [List.getElem?_cons_succ] at h
      rw [List.eraseIdx_cons_succ]
      calc a :: tl ~ a :: (d :: tl.eraseIdx k) := (ih k d h).cons a
        _ ~ d :: a :: tl.eraseIdx k := Perm.swap d a _

theorem subperm_append_both {α : Type _} {l₁ l₂ r₁ r₂ : List α}
    (h1 : l₁ <+~ l₂) (h2 : r₁ <+~ r₂) : l₁ ++ r₁ <+~ l₂ ++ r₂ := by
  obtain ⟨w1, p1, s1⟩ := h1
  obtain ⟨w2, p2, s2⟩ := h2
  exact ⟨w1 ++ w2, p1.append p2, s1.append s2⟩

theorem nnLoop_decomp (original : List Dest) (m : DMatrix) (sc : Nat) :
    ∀ (fuel : Nat) (unvisited route : List Dest) (current : Nat),
      ∃ l, l <+~ unvisited ∧
        nnLoop original m sc fuel unvisited route current = route ++ l := by
  intro fuel
  induction fuel with
  | zero =>
    intro unvisited route current
    exact ⟨[], List.nil_subperm, (List.append_nil route).symm⟩
  | succ fuel ih =>
    intro unvisited route current
    by_cases hne : unvisited = []
    · subst hne
      refine ⟨[], List.nil_subperm, ?_⟩
      rw [nnLoop, if_pos rfl, List.append_nil]
    · rcases hfn : findNearest original m sc current unvisited with _ | found
      · refine ⟨unvisited, Subperm.refl _, ?_⟩
        rw [nnLoop, if_neg hne, hfn]
      · obtain ⟨r0, d0, k0⟩ := found
        obtain ⟨l', hsub, heq⟩ := ih (unvisited.eraseIdx k0) (route ++ [d0])
          (match original.findIdx? (fun o => destinations_match d0 o) with
           | some oidx => sc + oidx
           | none => current)
        refine ⟨d0 :: l', ?_, ?_⟩
        · have hget := findNearest_getElem original m sc current unvisited r0 d0 k0 hfn
          have hperm := perm_cons_eraseIdx unvisited k0 d0 hget
          exact ((List.subperm_cons d0).mpr hsub).trans hperm.symm.subperm
        · rw [nnLoop, if_neg hne, hfn]
          dsimp only
          rw [heq, List.append_assoc, List.singleton_append]

theorem nearest_neighbor_tsp_perm (src : Option Src) (dests : List Dest)
    (m : DMatrix) (sc : Nat) :
    (nearest_neighbor_tsp src dests m sc).Perm dests := by
  simp only [nearest_neighbor_tsp]
  by_cases hne : dests = []
  · rw [if_pos hne, hne]
  · rw [if_neg hne]
    obtain ⟨l, hsub, heq⟩ := nnLoop_decomp dests m sc 20 dests [] 0
    rw [List.nil_append] at heq
    by_cases hlen : (nnLoop dests m sc 20 dests [] 0).length ≠ dests.length
    · rw [if_pos hlen]
    · rw [if_neg hlen]
      push_neg at hlen
      rw [heq] at hlen ⊢
      exact hsub.perm_of_length_le (le_of_eq hlen.symm)

theorem reverseSegment_perm (route : List Dest) (i j : Nat) (hij : i ≤ j) :
    (reverseSegment route i j).Perm route := by
  unfold reverseSegment
  conv_rhs => rw [← List.take_append_drop i route]
  rw [List.append_assoc]
  apply Perm.append_left
  have hsplit : route.drop i = (route.drop i).take (j - i) ++ route.drop j := by
    conv_lhs => rw [← List.take_append_drop (j - i) (route.drop i)]
    rw [List.drop_drop, Nat.add_sub_cancel' hij]
  conv_rhs => rw [hsplit]
  exact Perm.append_right _ (List.reverse_perm _)

theorem twoOptPairs_le (n : Nat) : ∀ p ∈ twoOptPairs n, p.1 ≤ p.2 := by
  intro p hp
  unfold twoOptPairs at hp
  simp only [List.mem_flatMap, List.mem_map, List.mem_filter, List.mem_range'_1] at hp
  obtain ⟨i, _, j, ⟨⟨hj1, _⟩, _⟩, rfl⟩ := hp
  omega

theorem foldl_inv {α β : Type _} (f : β → α → β) (P : β → Prop) :
    ∀ (l : List α) (init : β), P init →
      (∀ b a, a ∈ l → P b → P (f b a)) → P (l.foldl f init) := by
  intro l
  induction l with
  | nil =>
    intro init h _
    exact h
  | cons a l ih =>
    intro init h hstep
    exact ih (f init a) (hstep init a (List.mem_cons_self a l) h)
      (fun b x hx => hstep b x (List.mem_cons_of_mem a hx))

theorem twoOptPass_perm (m : DMatrix) (sc : Nat) (route : List Dest) (bd : Rat) :
    (twoOptPass m sc route bd).1.Perm route := by
  unfold twoOptPass
  apply foldl_inv _ (fun acc : List Dest × Rat × Bool => acc.1.Perm route)
  · exact Perm.refl route
  · intro b a ha hb
    dsimp only
    split_ifs with h
    · exact reverseSegment_perm route a.1 a.2 (twoOptPairs_le route.length a ha)
    · exact hb

theorem twoOptPass_spec (m : DMatrix) (sc : Nat) (route : List Dest) (bd : Rat)
    (hbd : calculate_route_distance route m sc = bd) :
    (twoOptPass m sc route bd).2.1 =
      calculate_route_distance (twoOptPass m sc route bd).1 m sc ∧
    (twoOptPass m sc route bd).2.1 ≤ bd := by
  unfold twoOptPass
  apply foldl_inv _ (fun acc : List Dest × Rat × Bool =>
    acc.2.1 = calculate_route_distance acc.1 m sc ∧ acc.2.1 ≤ bd)
  · exact ⟨hbd.symm, le_refl bd⟩
  · intro b a _ hb
    dsimp only
    split_ifs with h
    · exact ⟨rfl, le_of_lt (lt_of_lt_of_le h hb.2)⟩
    · exact hb

theorem twoOptLoop_perm (m : DMatrix) (sc : Nat) :
    ∀ (fuel : Nat) (r : List Dest), (twoOptLoop m sc fuel r).Perm r := by
  intro fuel
  induction fuel with
  | zero =>
    intro r
    exact Perm.refl r
  | succ fuel ih =>
    intro r
    rw [twoOptLoop]
    split_ifs with h
    · exact (ih _).trans (twoOptPass_perm m sc r _)
    · exact twoOptPass_perm m sc r _

theorem twoOptLoop_le (m : DMatrix) (sc : Nat) :
    ∀ (fuel : Nat) (r : List Dest),
      calculate_route_distance (twoOptLoop m sc fuel r) m sc ≤
        calculate_route_distance r m sc := by
  intro fuel
  induction fuel with
  | zero =>
    intro r
    exact le_refl _
  | succ fuel ih =>
    intro r
    have hspec := twoOptPass_spec m sc r (calculate_route_distance r m sc) rfl
    rw [twoOptLoop]
    split_ifs with h
    · exact le_trans (ih _) (hspec.1 ▸ hspec.2)
    · exact hspec.1 ▸ hspec.2

theorem two_opt_perm (route : List Dest) (m : DMatrix) (sc : Nat) :
    (two_opt_improvement route m sc).Perm route := by
  unfold two_opt_improvement
  split_ifs with h
  · exact Perm.refl route
  · exact twoOptLoop_perm m sc 50 route

/-- Claim C1: the sequencer (nearest-neighbor construction followed by
2-opt improvement) always returns a permutation of the input destination
list — for inputs of every size, which subsumes 0 ≤ |D| ≤ 50 — and
whenever the constructed route's length differs from |D| the
nearest-neighbor phase returns the original input order unchanged. -/
theorem sequencer_permutation_invariant (src : Option Src) (dests : List Dest)
    (m : DMatrix) (sc : Nat) :
    (two_opt_improvement (nearest_neighbor_tsp src dests m sc) m sc).Perm dests ∧
    ((nnLoop dests m sc 20 dests [] 0).length ≠ dests.length →
      nearest_neighbor_tsp src dests m sc = dests) := by
  constructor
  · exact (two_opt_perm _ m sc).trans (nearest_neighbor_tsp_perm src dests m sc)
  · intro h
    simp only [nearest_neighbor_tsp]
    by_cases hne : dests = []
    · rw [if_pos hne, hne]
    · rw [if_neg hne, if_pos h]

/-- Shared lemma: the sequencer output is a permutation of its input
(nearest-neighbor preserves the multiset, 2-opt only reverses
segments). -/
theorem sequencer_perm (src : Option Src) (dests : List Dest) (m : DMatrix)
    (sc : Nat) :
    (two_opt_improvement (nearest_neighbor_tsp src dests m sc) m sc).Perm dests :=
  (two_opt_perm _ m sc).trans (nearest_neighbor_tsp_perm src dests m sc)

/-! ## C7: 2-opt monotonicity -/

/-- Distinct concrete destinations for small examples. -/
def dA : Dest := ⟨1, "", 0, 0, 0, 0, ""⟩

/-- Second concrete destination. -/
def dB : Dest := ⟨2, "", 0, 0, 0, 0, ""⟩

/-- Third concrete destination. -/
def dC : Dest := ⟨3, "", 0, 0, 0, 0, ""⟩

/-- Fourth concrete destination. -/
def dD : Dest := ⟨4, "", 0, 0, 0, 0, ""⟩

/-- A concrete matrix (source count 1) on which the duplicate route
`[dA, dB, dA, dC]` admits a strictly improving 2-opt reversal. -/
def mDup : DMatrix :=
  [((0, 1), ⟨1, 0, false⟩), ((1, 2), ⟨10, 0, false⟩), ((2, 1), ⟨10, 0, false⟩),
   ((1, 4), ⟨10, 0, false⟩), ((1, 3), ⟨1, 0, false⟩), ((3, 4), ⟨1, 0, false⟩)]

/-- Claim C7: for every route of length ≥ 4 and every distance matrix,
the total route distance (as computed by the engine's own
`_calculate_route_distance`) of the 2-opt output is less than or equal
to that of the route handed to it — in particular of the
nearest-neighbor route. -/
theorem two_opt_monotonicity (route : List Dest) (m : DMatrix) (sc : Nat)
    (h : 4 ≤ route.length) :
    calculate_route_distance (two_opt_improvement route m sc) m sc ≤
      calculate_route_distance route m sc := by
  unfold two_opt_improvement
  rw [if_neg (by omega)]
  exact twoOptLoop_le m sc 50 route

/-- Witness for `two_opt_monotonicity` on a concrete length-4 route. -/
theorem two_opt_monotonicity_witness :
    4 ≤ ([dA, dB, dA, dC] : List Dest).length ∧
    calculate_route_distance (two_opt_improvement [dA, dB, dA, dC] mDup 1) mDup 1 ≤
      calculate_route_distance [dA, dB, dA, dC] mDup 1 :=
  ⟨by decide, two_opt_monotonicity [dA, dB, dA, dC] mDup 1 (by decide)⟩

/-! ## C9: 2-opt is the identity (position-keyed distance) -/

/-- Claim C9 is false as literally stated ("for every input route"):
on a route containing a duplicated destination record,
`route.index(dest)` resolves both occurrences to the first one, a
reversal can therefore change the computed distance, and 2-opt modifies
the route. -/
theorem two_opt_position_keyed_counterexample :
    two_opt_improvement [dA, dB, dA, dC] mDup 1 ≠ [dA, dB, dA, dC] := by
  with_unfolding_all decide

theorem indexOf_append_cons {α : Type _} [DecidableEq α] :
    ∀ (pre : List α) (d : α) (post : List α), d ∉ pre →
      (pre ++ d :: post).indexOf d = pre.length := by
  intro pre
  induction pre with
  | nil =>
    intro d post _
    simp [List.indexOf_cons_self]
  | cons p pre ih =>
    intro d post hd
    have hne : p ≠ d := by
      intro hc
      apply hd
      rw [← hc]
      exact List.mem_cons_self p pre
    rw [List.cons_append, List.indexOf_cons_ne _ hne,
      ih d post (fun hm => hd (List.mem_cons_of_mem p hm))]
    rfl

theorem crd_aux (m : DMatrix) (sc : Nat) (route : List Dest) (hnd : route.Nodup) :
    ∀ (suf pre : List Dest) (acc : Rat × Nat), pre ++ suf = route →
      suf.foldl
        (fun (acc : Rat × Nat) dest =>
          let dest_idx := sc + route.indexOf dest
          match mlookup m acc.2 dest_idx with
          | some e => (acc.1 + e.distance_km, dest_idx)
          | none => (acc.1, dest_idx)) acc =
      (List.range' pre.length suf.length).foldl
        (fun (acc : Rat × Nat) p =>
          match mlookup m acc.2 (sc + p) with
          | some e => (acc.1 + e.distance_km, sc + p)
          | none => (acc.1, sc + p)) acc := by
  intro suf
  induction suf with
  | nil =>
    intro pre acc _
    rfl
  | cons d suf ih =>
    intro pre acc hpre
    have hd : d ∉ pre := by
      have hnd2 : (pre ++ d :: suf).Nodup := hpre ▸ hnd
      have := (List.nodup_append.mp hnd2).2.2
      intro hmem
      exact this hmem (List.mem_cons_self d suf)
    have hidx : route.indexOf d = pre.length := by
      rw [← hpre]
      exact indexOf_append_cons pre d suf hd
    have hstep : List.range' pre.length (d :: suf).length =
        pre.length :: List.range' (pre.length + 1) suf.length := by
      rw [List.length_cons, List.range'_succ]
    have hpre' : (pre ++ [d]) ++ suf = route := by
      rw [List.append_assoc, List.singleton_append]
      exact hpre
    rw [hstep]
    simp only [List.foldl_cons]
    rw [hidx]
    refine (ih (pre ++ [d]) _ hpre').trans ?_
    rw [List.length_append, List.length_singleton]

theorem crd_eq_of_nodup_length (m : DMatrix) (sc : Nat) (r1 r2 : List Dest)
    (h1 : r1.Nodup) (h2 : r2.Nodup) (hlen : r1.length = r2.length) :
    calculate_route_distance r1 m sc = calculate_route_distance r2 m sc := by
  unfold calculate_route_distance
  rw [crd_aux m sc r1 h1 r1 [] ((0 : Rat), 0) rfl,
    crd_aux m sc r2 h2 r2 [] ((0 : Rat), 0) rfl]
  simp only [List.length_nil]
  rw [hlen]

theorem foldl_id {α β : Type _} (f : β → α → β) :
    ∀ (l : List α) (b : β), (∀ a ∈ l, f b a = b) → l.foldl f b = b := by
  intro l
  induction l with
  | nil =>
    intro b _
    rfl
  | cons a l ih =>
    intro b h
    rw [List.foldl_cons, h a (List.mem_cons_self a l)]
    exact ih b (fun x hx => h x (List.mem_cons_of_mem a hx))

theorem twoOptPass_nodup (m : DMatrix) (sc : Nat) (route : List Dest)
    (hnd : route.Nodup) :
    twoOptPass m sc route (calculate_route_distance route m sc) =
      (route, calculate_route_distance route m sc, false) := by
  unfold twoOptPass
  apply foldl_id
  intro ij hij
  have hle := twoOptPairs_le route.length ij hij
  have hperm := reverseSegment_perm route ij.1 ij.2 hle
  have heq : calculate_route_distance (reverseSegment route ij.1 ij.2) m sc =
      calculate_route_distance route m sc :=
    crd_eq_of_nodup_length m sc _ route (hperm.nodup_iff.mpr hnd) hnd hperm.length_eq
  dsimp only
  rw [heq, if_neg (lt_irrefl _)]

theorem twoOptLoop_nodup (m : DMatrix) (sc : Nat) (route : List Dest)
    (hnd : route.Nodup) : ∀ fuel, twoOptLoop m sc fuel route = route := by
  intro fuel
  cases fuel with
  | zero => rfl
  | succ n =>
    rw [twoOptLoop, twoOptPass_nodup m sc route hnd]
    simp

/-- Claim C9, amended: for every input route of pairwise-distinct
destination records and every distance matrix, 2-opt returns its input
route unchanged — the distance function keys every matrix lookup by the
destination's position in the candidate route (`source_count +
route.index(dest)`), so for duplicate-free routes every segment reversal
yields exactly the same computed distance and no strictly improving move
exists.  (With duplicated records `route.index` aliases to the first
occurrence and the result can change, see the counterexample.) -/
theorem two_opt_identity_of_nodup (route : List Dest) (m : DMatrix) (sc : Nat)
    (h : route.Nodup) : two_opt_improvement route m sc = route := by
  unfold two_opt_improvement
  split_ifs with h4
  · rfl
  · exact twoOptLoop_nodup m sc route h 50

/-- Witness for `two_opt_identity_of_nodup` on a concrete
duplicate-free route of length 4. -/
theorem two_opt_identity_of_nodup_witness :
    ([dA, dB, dC, dD] : List Dest).Nodup ∧
    two_opt_improvement [dA, dB, dC, dD] mDup 1 = [dA, dB, dC, dD] :=
  ⟨by decide, two_opt_identity_of_nodup [dA, dB, dC, dD] mDup 1 (by decide)⟩

/-! ## C10: nearest-neighbor iteration cap -/

/-- The current positions the nearest-neighbor loop can inhabit: the
initial source index 0 and the absolute matrix index of every
destination. -/
def consultedCurrents (sc n : Nat) : List Nat :=
  0 :: (List.range n).map fun o => sc + o

theorem findIdx?_some_bound {α : Type _} (p : α → Bool) :
    ∀ (l : List α) (i k : Nat), l.findIdx? p i = some k → i ≤ k ∧ k < i + l.length := by
  intro l
  induction l with
  | nil =>
    intro i k h
    simp [List.findIdx?] at h
  | cons a l ih =>
    intro i k h
    rw [List.findIdx?_cons] at h
    split_ifs at h with hp
    · rw [Option.some.injEq] at h
      subst h
      simp
    · obtain ⟨h1, h2⟩ := ih (i + 1) k h
      rw [List.length_cons]
      omega

theorem findIdx?_isSome_of_mem {α : Type _} (p : α → Bool) :
    ∀ (l : List α) (x : α), x ∈ l → p x = true →
      ∀ i, (l.findIdx? p i).isSome := by
  intro l
  induction l with
  | nil =>
    intro x hx
    simp at hx
  | cons a l ih =>
    intro x hx hp i
    rw [List.findIdx?_cons]
    split_ifs with hpa
    · rfl
    · rcases List.mem_cons.mp hx with rfl | hx2
      · exact absurd hp hpa
      · exact ih x hx2 hp (i + 1)

theorem destinations_match_refl (d : Dest) : destinations_match d d = true := by
  unfold destinations_match
  split_ifs with h1 h2
  · simp
  · simp only [sub_self, abs_zero, decide_eq_true_eq]
    norm_num
  · simp

theorem findNearestAux_isSome_mono (original : List Dest) (m : DMatrix)
    (sc cur : Nat) :
    ∀ (ds : List Dest) (i : Nat) (acc : Option (Rat × Dest × Nat)),
      acc.isSome → (findNearestAux original m sc cur ds i acc).isSome := by
  intro ds
  induction ds with
  | nil =>
    intro i acc h
    exact h
  | cons d0 ds ih =>
    intro i acc h
    rw [findNearestAux]
    apply ih
    rcases h1 : original.findIdx? (fun o => destinations_match d0 o) with _ | oidx
    · exact h
    · dsimp only
      rcases h2 : mlookup m cur (sc + oidx) with _ | e
      · exact h
      · dsimp only
        rcases acc with _ | best
        · rfl
        · dsimp only
          split_ifs <;> rfl

theorem findNearest_isSome (original : List Dest) (m : DMatrix) (sc cur : Nat)
    (unvisited : List Dest) (hne : unvisited ≠ [])
    (hall : ∀ d ∈ unvisited, ∃ oidx,
      original.findIdx? (fun o => destinations_match d o) = some oidx ∧
        (mlookup m cur (sc + oidx)).isSome = true) :
    (findNearest original m sc cur unvisited).isSome := by
  obtain ⟨d0, ds, rfl⟩ := List.exists_cons_of_ne_nil hne
  unfold findNearest
  rw [findNearestAux]
  apply findNearestAux_isSome_mono
  obtain ⟨oidx, hf, hl⟩ := hall d0 (List.mem_cons_self d0 ds)
  rw [hf]
  dsimp only
  rcases h2 : mlookup m cur (sc + oidx) with _ | e
  · rw [h2] at hl
    simp at hl
  · rfl

theorem nnLoop_length (original : List Dest) (m : DMatrix) (sc : Nat)
    (hm : ∀ c ∈ consultedCurrents sc original.length, ∀ o, o < original.length →
      (mlookup m c (sc + o)).isSome = true) :
    ∀ (fuel : Nat) (unvisited route : List Dest) (current : Nat),
      (∀ d ∈ unvisited, d ∈ original) →
      current ∈ consultedCurrents sc original.length →
      (nnLoop original m sc fuel unvisited route current).length =
        route.length + min fuel unvisited.length := by
  intro fuel
  induction fuel with
  | zero =>
    intro unvisited route current _ _
    simp [nnLoop]
  | succ fuel ih =>
    intro unvisited route current hsub hcur
    by_cases hne : unvisited = []
    · subst hne
      rw [nnLoop, if_pos rfl]
      simp
    · have hall : ∀ d ∈ unvisited, ∃ oidx,
          original.findIdx? (fun o => destinations_match d o) = some oidx ∧
            (mlookup m current (sc + oidx)).isSome = true := by
        intro d hd
        have hmem := hsub d hd
        have hfs : (original.findIdx? (fun o => destinations_match d o)).isSome :=
          findIdx?_isSome_of_mem _ original d hmem (destinations_match_refl d) 0
        obtain ⟨oidx, hoidx⟩ := Option.isSome_iff_exists.mp hfs
        refine ⟨oidx, hoidx, ?_⟩
        have hbound := findIdx?_some_bound _ original 0 oidx hoidx
        exact hm current hcur oidx (by omega)
      have hfs := findNearest_isSome original m sc current unvisited hne hall
      obtain ⟨found, hfound⟩ := Option.isSome_iff_exists.mp hfs
      obtain ⟨r0, d0, k0⟩ := found
      rw [nnLoop, if_neg hne, hfound]
      dsimp only
      have hget := findNearest_getElem original m sc current unvisited r0 d0 k0 hfound
      have hk : k0 < unvisited.length := by
        obtain ⟨hlt, _⟩ := List.getElem?_eq_some.mp hget
        exact hlt
      have hnc : (match original.findIdx? (fun o => destinations_match d0 o) with
          | some oidx => sc + oidx
          | none => current) ∈ consultedCurrents sc original.length := by
        rcases h1 : original.findIdx? (fun o => destinations_match d0 o) with _ | oidx
        · exact hcur
        · have hbound := findIdx?_some_bound _ original 0 oidx h1
          simp only [consultedCurrents, List.mem_cons, List.mem_map, List.mem_range]
          right
          exact ⟨oidx, by omega, rfl⟩
      have hsub' : ∀ d ∈ unvisited.eraseIdx k0, d ∈ original := fun d hd =>
        hsub d ((List.eraseIdx_sublist unvisited k0).subset hd)
      rw [ih (unvisited.eraseIdx k0) (route ++ [d0]) _ hsub' hnc]
      rw [List.length_append, List.length_eraseIdx, if_pos hk]
      have hpos := List.length_pos.mpr hne
      simp only [List.length_singleton]
      omega

/-- Claim C10: with more than 20 destinations and a matrix containing an
entry for every (current position, destination) pair the loop can
consult, nearest-neighbor places only 20 destinations (its `while` loop
is capped at 20 iterations, one placement each), the output-length
safety check fails, and a copy of the input list is returned — no
nearest-neighbor ordering is applied to a route of more than 20
stops. -/
theorem nn_over_twenty_returns_input (src : Option Src) (dests : List Dest)
    (m : DMatrix) (sc : Nat) (h20 : 20 < dests.length)
    (hm : ∀ c ∈ consultedCurrents sc dests.length, ∀ o, o < dests.length →
      (mlookup m c (sc + o)).isSome = true) :
    nearest_neighbor_tsp src dests m sc = dests := by
  have hne : dests ≠ [] := by
    intro h
    rw [h] at h20
    simp at h20
  have hlen := nnLoop_length dests m sc hm 20 dests [] 0 (fun _ hd => hd)
    (by simp [consultedCurrents])
  have hne2 : (nnLoop dests m sc 20 dests [] 0).length ≠ dests.length := by
    rw [hlen]
    simp only [List.length_nil]
    omega
  simp only [nearest_neighbor_tsp]
  rw [if_neg hne, if_pos hne2]

/-- A matrix that also carries self-entries, as needed to instantiate
`nn_over_twenty_returns_input`'s blanket lookup hypothesis. -/
def totalEntries (mk : Nat → Nat → Entry) (n : Nat) : DMatrix :=
  (List.range n).flatMap fun i => (List.range n).map fun j => ((i, j), mk i j)

theorem mlookup_flatMap_rows_total (mk : Nat → Nat → Entry) (n : Nat)
    (is : List Nat) (i j : Nat) :
    mlookup (is.flatMap fun i0 => (List.range n).map fun j0 => ((i0, j0), mk i0 j0))
        i j =
      if i ∈ is ∧ j < n then some (mk i j) else none := by
  induction is with
  | nil => simp [mlookup]
  | cons i0 is ih =>
    rw [List.flatMap_cons, mlookup_append, mlookup_map_row, ih, opt_match_if]
    simp only [List.mem_range, List.mem_cons]
    by_cases h1 : i = i0
    · subst h1
      by_cases h2 : j < n
      · rw [if_pos ⟨rfl, h2⟩, if_pos ⟨Or.inl rfl, h2⟩]
      · rw [if_neg (fun hc => h2 hc.2), if_neg (fun hc => h2 hc.2),
          if_neg (fun hc => h2 hc.2)]
    · rw [if_neg (fun hc => h1 hc.1)]
      by_cases h2 : i ∈ is ∧ j < n
      · rw [if_pos h2, if_pos ⟨Or.inr h2.1, h2.2⟩]
      · rw [if_neg h2, if_neg (fun hc => h2 ⟨hc.1.resolve_left h1, hc.2⟩)]

theorem mlookup_totalEntries (mk : Nat → Nat → Entry) (n i j : Nat) :
    mlookup (totalEntries mk n) i j =
      if i < n ∧ j < n then some (mk i j) else none := by
  unfold totalEntries
  rw [mlookup_flatMap_rows_total]
  simp [List.mem_range]

/-- Twenty-one destinations with distinct positive ids. -/
def c10Dests : List Dest :=
  (List.range 21).map fun n => ⟨n + 1, "", (n : Rat) + 1, 1, 0, 0, ""⟩

/-- A total matrix over the 21 destination indices (source count 0). -/
def c10M : DMatrix := totalEntries (fun _ _ => ⟨1, 1, false⟩) 21

/-- Witness for `nn_over_twenty_returns_input` at 21 destinations. -/
theorem nn_over_twenty_returns_input_witness :
    20 < c10Dests.length ∧
    nearest_neighbor_tsp none c10Dests c10M 0 = c10Dests := by
  have hlen : c10Dests.length = 21 := by
    simp [c10Dests]
  have hm : ∀ c ∈ consultedCurrents 0 c10Dests.length, ∀ o, o < c10Dests.length →
      (mlookup c10M c (0 + o)).isSome = true := by
    intro c hc o ho
    rw [hlen] at hc ho
    have hc21 : c < 21 := by
      simp only [consultedCurrents, List.mem_cons, List.mem_map, List.mem_range] at hc
      rcases hc with rfl | ⟨o2, ho2, rfl⟩ <;> omega
    show (mlookup (totalEntries (fun _ _ => ⟨1, 1, false⟩) 21) c (0 + o)).isSome = true
    rw [mlookup_totalEntries, if_pos ⟨hc21, by omega⟩]
    rfl
  exact ⟨by rw [hlen]; omega,
    nn_over_twenty_returns_input none c10Dests c10M 0 (by rw [hlen]; omega) hm⟩

/-! ## C2: the splitter's partition invariant -/

theorem selectFit_perm (maxW maxV : Rat) :
    ∀ (ds : List Dest) (cw cv : Rat),
      ((selectFit maxW maxV ds cw cv).1 ++ (selectFit maxW maxV ds cw cv).2.1).Perm ds := by
  intro ds
  induction ds with
  | nil =>
    intro cw cv
    simp [selectFit]
  | cons d ds ih =>
    intro cw cv
    rw [selectFit]
    split_ifs with h
    · dsimp only
      rw [List.cons_append]
      exact (ih _ _).cons d
    · dsimp only
      exact List.perm_middle.trans ((ih _ _).cons d)

theorem capLoop_subperm (sources : List Src) (m : DMatrix) :
    ∀ (vehicles : List Vehicle) (remaining : List Dest) (source_idx : Nat),
      ((capLoop sources m vehicles remaining source_idx).flatMap
        Route.destinations) <+~ remaining := by
  intro vehicles
  induction vehicles with
  | nil =>
    intro remaining source_idx
    exact List.nil_subperm
  | cons v vs ih =>
    intro remaining source_idx
    rw [capLoop]
    by_cases hne : remaining = []
    · rw [if_pos hne]
      exact List.nil_subperm
    · rw [if_neg hne]
      by_cases hsel : (selectFit v.max_payload v.cargo_volume remaining 0 0).1 = []
      · rw [if_pos hsel]
        have hperm := selectFit_perm v.max_payload v.cargo_volume remaining 0 0
        rw [hsel, List.nil_append] at hperm
        exact (ih _ _).trans hperm.subperm
      · rw [if_neg hsel, List.flatMap_cons]
        have hperm := selectFit_perm v.max_payload v.cargo_volume remaining 0 0
        have hseq := sequencer_perm (sources.get? (source_idx % sources.length))
          (selectFit v.max_payload v.cargo_volume remaining 0 0).1 m sources.length
        exact (subperm_append_both hseq.subperm (ih _ _)).trans hperm.subperm

theorem flatMap_filter_eq_of_not_mem {α : Type _} (f : α → Nat) (d : α)
    (ds : List α) :
    ∀ (ks : List Nat), f d ∉ ks →
      (ks.flatMap fun c => (d :: ds).filter fun x => f x = c) =
        ks.flatMap fun c => ds.filter fun x => f x = c := by
  intro ks
  induction ks with
  | nil =>
    intro _
    rfl
  | cons c ks ih =>
    intro hmem
    have hne : ¬ f d = c := by
      intro h
      apply hmem
      rw [h]
      exact List.mem_cons_self c ks
    rw [List.flatMap_cons, List.flatMap_cons,
      ih (fun h => hmem (List.mem_cons_of_mem c h))]
    congr 1
    simp [List.filter_cons, hne]

theorem flatMap_filter_perm_of_mem {α : Type _} (f : α → Nat) (d : α)
    (ds : List α) :
    ∀ (ks : List Nat), ks.Nodup → f d ∈ ks →
      (ks.flatMap fun c => (d :: ds).filter fun x => f x = c).Perm
        (d :: ks.flatMap fun c => ds.filter fun x => f x = c) := by
  intro ks
  induction ks with
  | nil =>
    intro _ hmem
    simp at hmem
  | cons c ks ih =>
    intro hnd hmem
    have hcnot : c ∉ ks := (List.nodup_cons.mp hnd).1
    have hnd2 : ks.Nodup := (List.nodup_cons.mp hnd).2
    rw [List.flatMap_cons, List.flatMap_cons]
    by_cases hfd : f d = c
    · have hhead : ((d :: ds).filter fun x => f x = c) =
          d :: (ds.filter fun x => f x = c) := by
        simp [List.filter_cons, hfd]
      rw [hhead,
        flatMap_filter_eq_of_not_mem f d ds ks (by rw [hfd]; exact hcnot),
        List.cons_append]
    · have hhead : ((d :: ds).filter fun x => f x = c) =
          ds.filter fun x => f x = c := by
        simp [List.filter_cons, hfd]
      rw [hhead]
      have hmem2 : f d ∈ ks := by
        rcases List.mem_cons.mp hmem with h | h
        · exact absurd h hfd
        · exact h
      refine (Perm.append_left _ (ih hnd2 hmem2)).trans ?_
      exact List.perm_middle

theorem flatMap_filter_partition_perm {α : Type _} (f : α → Nat) (k : Nat) :
    ∀ (l : List α), (∀ x ∈ l, f x < k) →
      ((List.range k).flatMap fun c => l.filter fun x => f x = c).Perm l := by
  intro l
  induction l with
  | nil =>
    intro _
    have hempty :
        ((List.range k).flatMap fun c => ([] : List α).filter fun x => f x = c) =
          [] := by
      simp
    rw [hempty]
  | cons d ds ih =>
    intro hf
    have hd : f d ∈ List.range k := List.mem_range.mpr (hf d (List.mem_cons_self d ds))
    refine (flatMap_filter_perm_of_mem f d ds (List.range k)
      (List.nodup_range k) hd).trans ?_
    exact (ih (fun x hx => hf x (List.mem_cons_of_mem d hx))).cons d

theorem bestClusterIdx_lt (hav : Rat → Rat → Rat → Rat → Rat) (d : Dest)
    (centroids : List (Rat × Rat)) (hne : centroids ≠ []) :
    bestClusterIdx hav d centroids < centroids.length := by
  unfold bestClusterIdx
  have hinv := foldl_inv
    (fun (acc : Nat × Option Rat) ic =>
      let dist := hav d.latitude d.longitude ic.2.1 ic.2.2
      match acc.2 with
      | none => (ic.1, some dist)
      | some md => if dist < md then (ic.1, some dist) else acc)
    (fun acc : Nat × Option Rat =>
      acc.1 < centroids.length ∨ (acc.1 = 0 ∧ acc.2 = none))
    centroids.enum (0, none) (Or.inr ⟨rfl, rfl⟩) ?_
  · rcases hinv with h | h
    · exact h
    · rw [h.1]
      exact List.length_pos.mpr hne
  · intro b a ha hb
    obtain ⟨i, x⟩ := a
    have hib := List.mem_enumFrom (show (i, x) ∈ List.enumFrom 0 centroids from ha)
    have hilt : i < centroids.length := by omega
    dsimp only
    rcases b with ⟨b1, b2⟩
    rcases b2 with _ | md
    · exact Or.inl hilt
    · dsimp only
      split_ifs
      · exact Or.inl hilt
      · rcases hb with hb | hb
        · exact Or.inl hb
        · exact absurd hb.2 (by simp)

theorem assignClusters_length (hav : Rat → Rat → Rat → Rat → Rat)
    (destinations : List Dest) (centroids : List (Rat × Rat)) (k : Nat) :
    (assignClusters hav destinations centroids k).length = k := by
  simp [assignClusters]

theorem updateCentroids_length (clusters : List (List Dest))
    (old : List (Rat × Rat)) :
    (updateCentroids clusters old).length = clusters.length := by
  simp [updateCentroids, List.enum_length]

theorem assignClusters_flatten_perm (hav : Rat → Rat → Rat → Rat → Rat)
    (destinations : List Dest) (centroids : List (Rat × Rat)) (k : Nat)
    (hb : ∀ d ∈ destinations, bestClusterIdx hav d centroids < k) :
    ((assignClusters hav destinations centroids k).flatten).Perm destinations := by
  unfold assignClusters
  rw [← List.flatMap_def]
  exact flatMap_filter_partition_perm
    (fun d => bestClusterIdx hav d centroids) k destinations hb

theorem kmeansRounds_flatten_perm (hav : Rat → Rat → Rat → Rat → Rat)
    (destinations : List Dest) (k : Nat) (hk : 0 < k) :
    ∀ (r : Nat) (centroids : List (Rat × Rat)) (c0 : List (List Dest)),
      0 < r → centroids.length = k →
      ((kmeansRounds hav destinations k r centroids c0).flatten).Perm
        destinations := by
  intro r
  induction r with
  | zero =>
    intro centroids c0 hr _
    exact absurd hr (by omega)
  | succ r ih =>
    intro centroids c0 _ hlen
    rw [kmeansRounds]
    rcases Nat.eq_zero_or_pos r with hr | hr
    · subst hr
      rw [kmeansRounds]
      apply assignClusters_flatten_perm
      intro d hd
      have hne : centroids ≠ [] := by
        intro hc
        rw [hc] at hlen
        simp at hlen
        omega
      have := bestClusterIdx_lt hav d centroids hne
      omega
    · apply ih _ _ hr
      rw [updateCentroids_length, assignClusters_length]

theorem flatten_map_singleton {α : Type _} :
    ∀ (l : List α), (l.map fun d => [d]).flatten = l := by
  intro l
  induction l with
  | nil => rfl
  | cons d ds ih =>
    simp only [List.map_cons, List.flatten_cons, List.singleton_append, ih]

theorem cluster_destinations_flatten_perm (hav : Rat → Rat → Rat → Rat → Rat)
    (destinations : List Dest) (k : Nat) (sample : List Dest) (hk : 0 < k)
    (hsample : sample.length = k) :
    ((cluster_destinations hav destinations k sample).flatten).Perm destinations := by
  unfold cluster_destinations
  by_cases hle : destinations.length ≤ k
  · rw [if_pos hle, flatten_map_singleton]
  · rw [if_neg hle, List.flatten_filter_ne_nil]
    have h10 : (0 : Nat) < 10 := by omega
    have hlen : (sample.map fun d => (d.latitude, d.longitude)).length = k := by
      rw [List.length_map, hsample]
    have h := kmeansRounds_flatten_perm hav destinations k hk 10
      (sample.map fun d => (d.latitude, d.longitude)) [] h10 hlen
    exact h

theorem clusterRouteFor_destinations_perm (sources : List Src) (m : DMatrix)
    (i : Nat) (c : List Dest) :
    ((clusterRouteFor sources m i c).destinations).Perm c :=
  sequencer_perm (find_best_source_for_cluster sources c m) c m sources.length

theorem enumFrom_cluster_routes_perm (sources : List Src) (m : DMatrix) :
    ∀ (clusters : List (List Dest)) (n : Nat),
      (((List.enumFrom n clusters).filterMap fun cc =>
        if cc.2 = [] then none
        else some (clusterRouteFor sources m cc.1 cc.2)).flatMap
        Route.destinations).Perm clusters.flatten := by
  intro clusters
  induction clusters with
  | nil =>
    intro n
    exact Perm.nil
  | cons c cs ih =>
    intro n
    rw [List.enumFrom_cons]
    simp only [List.filterMap_cons]
    by_cases hc : c = []
    · rw [if_pos hc]
      dsimp only
      rw [hc, List.flatten_cons, List.nil_append]
      exact ih (n + 1)
    · rw [if_neg hc]
      dsimp only
      rw [List.flatMap_cons, List.flatten_cons]
      exact Perm.append (clusterRouteFor_destinations_perm sources m n c) (ih (n + 1))

theorem geo_routes_partition (hav : Rat → Rat → Rat → Rat → Rat)
    (sources : List Src) (destinations : List Dest) (m : DMatrix)
    (vehicles : List Vehicle) (sample : List Dest) (hveh : vehicles ≠ [])
    (hsample : sample.length = min (min vehicles.length destinations.length) 4) :
    ((create_geographical_cluster_routes hav sources destinations m vehicles
      sample).flatMap Route.destinations).Perm destinations := by
  by_cases hd : destinations = []
  · subst hd
    simp [create_geographical_cluster_routes, cluster_destinations]
  · have hk : 0 < min (min vehicles.length destinations.length) 4 := by
      have h1 := List.length_pos.mpr hveh
      have h2 := List.length_pos.mpr hd
      omega
    unfold create_geographical_cluster_routes
    refine (enumFrom_cluster_routes_perm sources m _ 0).trans ?_
    exact cluster_destinations_flatten_perm hav destinations _ sample hk hsample

theorem splitRouteFor_destinations_perm (src : Option Src) (m : DMatrix)
    (sc gc : Nat) (ig : Nat × List Dest × Rat × Rat) :
    ((splitRouteFor src m sc gc ig).destinations).Perm ig.2.1 :=
  nearest_neighbor_tsp_perm src ig.2.1 m sc

theorem enumFrom_split_routes_perm (src : Option Src) (m : DMatrix) (sc gc : Nat) :
    ∀ (groups : List (List Dest × Rat × Rat)) (n : Nat),
      (((List.enumFrom n groups).map (splitRouteFor src m sc gc)).flatMap
        Route.destinations).Perm ((groups.map fun g => g.1).flatten) := by
  intro groups
  induction groups with
  | nil =>
    intro n
    exact Perm.nil
  | cons g gs ih =>
    intro n
    rw [List.enumFrom_cons, List.map_cons, List.flatMap_cons, List.map_cons,
      List.flatten_cons]
    exact Perm.append (splitRouteFor_destinations_perm src m sc gc (n, g)) (ih (n + 1))

theorem splitGroups_flatten (maxW maxV : Rat) :
    ∀ (ds cur : List Dest) (cw cv : Rat),
      (((splitGroups maxW maxV ds cur cw cv).map fun g => g.1).flatten) = cur ++ ds := by
  intro ds
  induction ds with
  | nil =>
    intro cur cw cv
    rw [splitGroups]
    split_ifs with h
    · rw [h]
      rfl
    · rfl
  | cons d ds ih =>
    intro cur cw cv
    rw [splitGroups]
    by_cases h : cw + d.total_weight ≤ maxW ∧ cv + d.total_volume ≤ maxV
    · rw [if_pos h, ih, List.append_assoc, List.singleton_append]
    · rw [if_neg h, List.map_append, List.flatten_append, ih]
      by_cases hcur : cur = []
      · rw [if_pos hcur, hcur]
        rfl
      · rw [if_neg hcur]
        simp [List.singleton_append]

theorem split_route_by_capacity_perm (route : Route) (vehicles : List Vehicle)
    (m : DMatrix) (sc : Nat) :
    ((split_route_by_capacity route vehicles m sc).flatMap
      Route.destinations).Perm route.destinations := by
  unfold split_route_by_capacity
  refine (enumFrom_split_routes_perm route.source m sc _ _ 0).trans ?_
  rw [splitGroups_flatten, List.nil_append]

theorem flatMap_perm_of_perm {α β : Type _} (f g : α → List β) :
    ∀ (l : List α), (∀ x ∈ l, (f x).Perm (g x)) →
      (l.flatMap f).Perm (l.flatMap g) := by
  intro l
  induction l with
  | nil =>
    intro _
    exact Perm.nil
  | cons a l ih =>
    intro h
    rw [List.flatMap_cons, List.flatMap_cons]
    exact Perm.append (h a (List.mem_cons_self a l))
      (ih fun x hx => h x (List.mem_cons_of_mem a hx))

theorem flatMap_assoc_eq {α β γ : Type _} (f : α → List β) (g : β → List γ) :
    ∀ (l : List α), (l.flatMap f).flatMap g = l.flatMap fun x => (f x).flatMap g := by
  intro l
  induction l with
  | nil => rfl
  | cons a l ih =>
    rw [List.flatMap_cons, List.flatMap_append, ih, List.flatMap_cons]

theorem balanced_branch_perm (vehicles : List Vehicle) (m : DMatrix) (sc : Nat)
    (r : Route) (o : Option Vehicle) :
    ((match o with
      | some _ => [r]
      | none => split_route_by_capacity r vehicles m sc).flatMap
      Route.destinations).Perm r.destinations := by
  cases o with
  | none => exact split_route_by_capacity_perm r vehicles m sc
  | some v =>
    dsimp only
    rw [List.flatMap_cons, List.flatMap_nil, List.append_nil]

theorem balanced_routes_partition (hav : Rat → Rat → Rat → Rat → Rat)
    (sources : List Src) (destinations : List Dest) (m : DMatrix)
    (vehicles : List Vehicle) (sample : List Dest) (hveh : vehicles ≠ [])
    (hsample : sample.length = min (min vehicles.length destinations.length) 4) :
    ((create_balanced_routes hav sources destinations m vehicles sample).flatMap
      Route.destinations).Perm destinations := by
  unfold create_balanced_routes
  rw [flatMap_assoc_eq]
  refine (flatMap_perm_of_perm _ Route.destinations _ ?_).trans
    (geo_routes_partition hav sources destinations m vehicles sample hveh hsample)
  intro r _
  exact balanced_branch_perm vehicles m sources.length r _

theorem single_route_partition (sources : List Src) (destinations : List Dest)
    (m : DMatrix) (hs : sources ≠ []) :
    ((create_single_optimized_route sources destinations m).flatMap
      Route.destinations).Perm destinations := by
  unfold create_single_optimized_route
  by_cases hd : destinations = []
  · rw [if_pos (Or.inr hd), hd]
    exact Perm.nil
  · have hcond : ¬ (sources = [] ∨ destinations = []) := by
      rintro (h | h)
      · exact hs h
      · exact hd h
    rw [if_neg hcond]
    simp only [List.flatMap_cons, List.flatMap_nil, List.append_nil]
    exact sequencer_perm sources.head? destinations m sources.length

/-- Claim C2, amended: the splitter never duplicates, substitutes or
invents destinations under any strategy, and the partition invariant
(every input destination exactly once across the produced routes) does
hold for the single-optimized-route strategy (given a source), for
geographical clustering and for the balanced strategy (given a nonempty
fleet and the k-element centroid sample that `random.sample` always
supplies); the one exception is capacity-based splitting, whose routes
form only a sub-permutation of the input: destinations left over when
the one-pass-per-vehicle fleet loop ends are silently dropped — as in
the scenario, where one 1000 kg vehicle against 2500 kg of cargo yields
exactly ONE route group of 1000 kg instead of ≥ 3 groups (see the
counterexample). -/
theorem splitter_partition_amended (hav : Rat → Rat → Rat → Rat → Rat)
    (sources : List Src) (destinations : List Dest) (m : DMatrix)
    (vehicles : List Vehicle) (sample : List Dest) :
    ((create_capacity_based_routes sources destinations m vehicles).flatMap
      Route.destinations) <+~ destinations ∧
    (sources ≠ [] →
      ((create_single_optimized_route sources destinations m).flatMap
        Route.destinations).Perm destinations) ∧
    (vehicles ≠ [] →
      sample.length = min (min vehicles.length destinations.length) 4 →
      ((create_geographical_cluster_routes hav sources destinations m vehicles
        sample).flatMap Route.destinations).Perm destinations) ∧
    (vehicles ≠ [] →
      sample.length = min (min vehicles.length destinations.length) 4 →
      ((create_balanced_routes hav sources destinations m vehicles
        sample).flatMap Route.destinations).Perm destinations) :=
  ⟨capLoop_subperm sources m vehicles destinations 0,
    fun hs => single_route_partition sources destinations m hs,
    fun hv hsamp =>
      geo_routes_partition hav sources destinations m vehicles sample hv hsamp,
    fun hv hsamp =>
      balanced_routes_partition hav sources destinations m vehicles sample hv hsamp⟩

/-- Concrete source for the capacity-overflow scenario. -/
def c2Src : Src := ⟨1, "", 1, 1⟩

/-- Scenario destination of 1000 kg. -/
def c2D1 : Dest := ⟨1, "", 2, 1, 1000, 0, "delivery"⟩

/-- Second scenario destination of 1000 kg. -/
def c2D2 : Dest := ⟨2, "", 4, 1, 1000, 0, "delivery"⟩

/-- Third scenario destination of 500 kg. -/
def c2D3 : Dest := ⟨3, "", 6, 1, 500, 0, "delivery"⟩

/-- The scenario pool: 2500 kg across three destinations. -/
def c2Dests : List Dest := [c2D1, c2D2, c2D3]

/-- The single scenario vehicle with max_payload 1000 kg. -/
def c2Vehicle : Vehicle := ⟨1, 1000, 90⟩

/-- The splitter's output on the capacity-overflow scenario. -/
def c2Out : List Route :=
  create_optimized_routes cHav [c2Src] c2Dests []
    (determine_routing_strategy (analyze_cargo_requirements c2Dests) [c2Vehicle])
    [c2Vehicle] []

/-- Claim C2 is false on the code: in the spec's own capacity-overflow
scenario (one vehicle of max_payload 1000 kg, destinations totalling
2500 kg) the selected strategy is capacity-based splitting, yet the
splitter produces exactly ONE route group (weight 1000 kg), not at least
3, and the destinations of all produced routes are not a permutation of
the input — 1500 kg of destinations are dropped because the per-vehicle
loop never revisits a vehicle. -/
theorem splitter_partition_counterexample :
    (determine_routing_strategy (analyze_cargo_requirements c2Dests) [c2Vehicle]).strategy =
      "capacity_based_splitting" ∧
    c2Out.length = 1 ∧
    c2Out.map Route.cargo_weight = [1000] ∧
    ¬ ((c2Out.flatMap Route.destinations).Perm c2Dests) := by
  with_unfolding_all decide

/-- Witness for the amended partition theorem: every hypothesis is
discharged at a concrete one-source, one-vehicle, one-destination
scenario (so `k = min(1, 1, 4) = 1` and the sample has 1 element). -/
theorem splitter_partition_amended_witness :
    (((create_capacity_based_routes [c2Src] [c2D1] [] [c2Vehicle]).flatMap
      Route.destinations) <+~ [c2D1]) ∧
    ((create_single_optimized_route [c2Src] [c2D1] []).flatMap
      Route.destinations).Perm [c2D1] ∧
    ((create_geographical_cluster_routes cHav [c2Src] [c2D1] [] [c2Vehicle]
      [c2D1]).flatMap Route.destinations).Perm [c2D1] ∧
    ((create_balanced_routes cHav [c2Src] [c2D1] [] [c2Vehicle]
      [c2D1]).flatMap Route.destinations).Perm [c2D1] :=
  ⟨(splitter_partition_amended cHav [c2Src] [c2D1] [] [c2Vehicle] [c2D1]).1,
   (splitter_partition_amended cHav [c2Src] [c2D1] [] [c2Vehicle] [c2D1]).2.1
     (by simp),
   (splitter_partition_amended cHav [c2Src] [c2D1] [] [c2Vehicle] [c2D1]).2.2.1
     (by simp) (by decide),
   (splitter_partition_amended cHav [c2Src] [c2D1] [] [c2Vehicle] [c2D1]).2.2.2
     (by simp) (by decide)⟩

/-! ## C5: the cost model -/

theorem orDefault_nonneg (x dflt : Rat) (hx : 0 ≤ x) (hd : 0 ≤ dflt) :
    0 ≤ orDefault x dflt := by
  unfold orDefault
  split_ifs <;> assumption

theorem effFuelConsumption_nonneg (vf : Option Rat)
    (hvf : ∀ x, vf = some x → 0 ≤ x) : 0 ≤ effFuelConsumption vf := by
  unfold effFuelConsumption
  cases vf with
  | none =>
    norm_num
  | some v =>
    dsimp only
    split_ifs
    · norm_num
    · exact hvf v rfl

theorem round2_nonneg (x : Rat) (hx : 0 ≤ x) : 0 ≤ round2 x := by
  unfold round2
  dsimp only
  have hy : (0 : Rat) ≤ x * 100 := by positivity
  have hf : (0 : Int) ≤ ⌊x * 100⌋ := Int.floor_nonneg.mpr hy
  split_ifs <;>
  · apply div_nonneg _ (by norm_num)
    exact_mod_cast (by omega : (0 : Int) ≤ _)

/-- The concrete parameter set of the additivity counterexample (note 0
maintenance rate falls back to the documented 0.5 default, as the code's
`or`-defaulting prescribes). -/
def c5Params : CostParams := ⟨1, 1, 0, 0, 0⟩

/-- Claim C5 is false as stated about the returned breakdown: at
distance = duration = 1.004, vehicle fuel consumption 100 L/100km and
the (non-negative) parameter set `c5Params`, the rounded components sum
to 2.50 while the returned total (rounded from the exact sum) is 2.51 —
`round(total, 2)` does not distribute over the individually rounded
components. -/
theorem cost_additivity_counterexample :
    (0 ≤ (251 / 250 : Rat) ∧ 0 ≤ c5Params.fuel_price_per_liter ∧
      0 ≤ c5Params.driver_cost_per_hour ∧ 0 ≤ c5Params.maintenance_cost_per_km ∧
      0 ≤ c5Params.toll_cost_per_km ∧ 0 ≤ c5Params.base_mission_cost ∧
      0 ≤ (100 : Rat)) ∧
    (calculate_costs (251 / 250) (251 / 250) (some 100) c5Params).total_cost ≠
      (calculate_costs (251 / 250) (251 / 250) (some 100) c5Params).base_cost +
        (calculate_costs (251 / 250) (251 / 250) (some 100) c5Params).fuel_cost +
        (calculate_costs (251 / 250) (251 / 250) (some 100) c5Params).driver_cost +
        (calculate_costs (251 / 250) (251 / 250) (some 100) c5Params).maintenance_cost +
        (calculate_costs (251 / 250) (251 / 250) (some 100) c5Params).toll_cost := by
  with_unfolding_all decide

/-- Claim C5, amended: for non-negative inputs every returned component
is non-negative, the returned `total_cost` is the 2-decimal rounding of
the EXACT sum base + fuel + driver + maintenance + toll (each returned
component being rounded separately, the displayed components may sum to
a value that differs from `total_cost` by rounding), the fuel cost is
distance × (fuel_consumption / 100) × fuel price per liter, and the
fuel consumption defaults to 25 L/100km when the vehicle data supplies
none (or the falsy 0). -/
theorem cost_model_amended (d h : Rat) (vf : Option Rat) (p : CostParams)
    (hd : 0 ≤ d) (hh : 0 ≤ h)
    (hp1 : 0 ≤ p.fuel_price_per_liter) (hp2 : 0 ≤ p.driver_cost_per_hour)
    (hp3 : 0 ≤ p.maintenance_cost_per_km) (hp4 : 0 ≤ p.toll_cost_per_km)
    (hp5 : 0 ≤ p.base_mission_cost) (hvf : ∀ x, vf = some x → 0 ≤ x) :
    (0 ≤ (calculate_costs d h vf p).base_cost ∧
      0 ≤ (calculate_costs d h vf p).fuel_cost ∧
      0 ≤ (calculate_costs d h vf p).driver_cost ∧
      0 ≤ (calculate_costs d h vf p).maintenance_cost ∧
      0 ≤ (calculate_costs d h vf p).toll_cost ∧
      0 ≤ (calculate_costs d h vf p).total_cost) ∧
    (calculate_costs d h vf p).total_cost =
      round2 (orDefault p.base_mission_cost 0 +
        d * (effFuelConsumption vf / 100) * orDefault p.fuel_price_per_liter 12.5 +
        h * orDefault p.driver_cost_per_hour 20 +
        d * orDefault p.maintenance_cost_per_km 0.5 +
        d * orDefault p.toll_cost_per_km 0) ∧
    (calculate_costs d h vf p).fuel_cost =
      round2 (d * (effFuelConsumption vf / 100) *
        orDefault p.fuel_price_per_liter 12.5) ∧
    ((vf = none ∨ vf = some 0) → effFuelConsumption vf = 25) := by
  have hfc := effFuelConsumption_nonneg vf hvf
  have h1 := orDefault_nonneg p.fuel_price_per_liter 12.5 hp1 (by norm_num)
  have h2 := orDefault_nonneg p.driver_cost_per_hour 20 hp2 (by norm_num)
  have h3 := orDefault_nonneg p.maintenance_cost_per_km 0.5 hp3 (by norm_num)
  have h4 := orDefault_nonneg p.toll_cost_per_km 0 hp4 (by norm_num)
  have h5 := orDefault_nonneg p.base_mission_cost 0 hp5 (by norm_num)
  refine ⟨⟨?_, ?_, ?_, ?_, ?_, ?_⟩, rfl, rfl, ?_⟩
  · exact round2_nonneg _ h5
  · exact round2_nonneg _ (by positivity)
  · exact round2_nonneg _ (by positivity)
  · exact round2_nonneg _ (by positivity)
  · exact round2_nonneg _ (by positivity)
  · exact round2_nonneg _ (by positivity)
  · rintro (rfl | rfl)
    · norm_num [effFuelConsumption]
    · norm_num [effFuelConsumption]

/-- Witness for `cost_model_amended` at the concrete counterexample
inputs. -/
theorem cost_model_amended_witness :
    (calculate_costs (251 / 250) (251 / 250) (some 100) c5Params).total_cost =
      round2 (orDefault c5Params.base_mission_cost 0 +
        (251 / 250 : Rat) * (effFuelConsumption (some 100) / 100) *
          orDefault c5Params.fuel_price_per_liter 12.5 +
        (251 / 250 : Rat) * orDefault c5Params.driver_cost_per_hour 20 +
        (251 / 250 : Rat) * orDefault c5Params.maintenance_cost_per_km 0.5 +
        (251 / 250 : Rat) * orDefault c5Params.toll_cost_per_km 0) :=
  (cost_model_amended (251 / 250) (251 / 250) (some 100) c5Params
    (by norm_num) (by norm_num) (by norm_num [c5Params]) (by norm_num [c5Params])
    (by norm_num [c5Params]) (by norm_num [c5Params]) (by norm_num [c5Params])
    (fun x hx => by
      rw [Option.some.injEq] at hx
      rw [← hx]
      norm_num)).2.1

/-! ## C6: the strategy decision tree -/

/-- Zero-coordinate destination that exposes the spread filtering. -/
def c6D1 : Dest := ⟨1, "", 0, 0, 0, 0, ""⟩

/-- Valid destination at (2, 2). -/
def c6D2 : Dest := ⟨2, "", 2, 2, 0, 0, ""⟩

/-- Valid destination at (2.1, 2.1). -/
def c6D3 : Dest := ⟨3, "", 21 / 10, 21 / 10, 0, 0, ""⟩

/-- Valid destination at (2.2, 2.2). -/
def c6D4 : Dest := ⟨4, "", 22 / 10, 22 / 10, 0, 0, ""⟩

/-- The strategy counterexample pool. -/
def c6Dests : List Dest := [c6D1, c6D2, c6D3, c6D4]

/-- A single large vehicle for the strategy counterexample. -/
def c6Vehicle : Vehicle := ⟨1, 25000, 90⟩

/-- Claim C6 is false as stated: with a (0,0)-coordinate destination in
the pool, the claim's spread (ranges over ALL destinations: 2.2°) sends
the spec tree to geographical clustering, while the code filters the
zero coordinates out of the ranges (spread 0.2° < 0.5°) and selects the
single optimized route. -/
theorem strategy_spread_counterexample :
    (determine_routing_strategy (analyze_cargo_requirements c6Dests) [c6Vehicle]).strategy =
      "single_optimized_route" ∧
    specRoutingStrategy c6Dests [c6Vehicle] = "geographical_clustering" ∧
    (determine_routing_strategy (analyze_cargo_requirements c6Dests) [c6Vehicle]).strategy ≠
      specRoutingStrategy c6Dests [c6Vehicle] := by
  with_unfolding_all decide

/-- Claim C6, amended: the strategy selection evaluates exactly the
spec's decision tree in the spec's order, with the single change that
the geographic spread averages the ranges of the non-zero latitudes and
non-zero longitudes only (0 when either set is empty). -/
theorem strategy_tree_amended (dests : List Dest) (vehicles : List Vehicle) :
    (determine_routing_strategy (analyze_cargo_requirements dests) vehicles).strategy =
      amendedRoutingStrategy dests vehicles := by
  have hA : (analyze_cargo_requirements dests).geographical_spread =
      amendedGeographicSpread dests := by
    unfold analyze_cargo_requirements amendedGeographicSpread
    dsimp only
    simp only [List.filter_map, Function.comp_def]
  have hW : (analyze_cargo_requirements dests).total_weight =
      (dests.map (·.total_weight)).sum := rfl
  have hV : (analyze_cargo_requirements dests).total_volume =
      (dests.map (·.total_volume)).sum := rfl
  have hC : (analyze_cargo_requirements dests).destination_count = dests.length := rfl
  simp only [determine_routing_strategy, amendedRoutingStrategy]
  rw [hA, hW, hV, hC]
  split_ifs <;> rfl

/-! ## C8: determinism of the splitter -/

/-- Source for the clustering counterexample. -/
def c8Src : Src := ⟨1, "", 0, 0⟩

/-- Collinear destination at latitude 0. -/
def c8A : Dest := ⟨1, "", 0, 1, 0, 0, ""⟩

/-- Collinear destination at latitude 2. -/
def c8B : Dest := ⟨2, "", 2, 1, 0, 0, ""⟩

/-- Collinear destination at latitude 3. -/
def c8C : Dest := ⟨3, "", 3, 1, 0, 0, ""⟩

/-- Collinear destination at latitude 5. -/
def c8D : Dest := ⟨4, "", 5, 1, 0, 0, ""⟩

/-- The clustering counterexample pool. -/
def c8Dests : List Dest := [c8A, c8B, c8C, c8D]

/-- Two identical vehicles (so k-means runs with k = 2). -/
def c8Vehicles : List Vehicle := [⟨1, 25000, 90⟩, ⟨2, 25000, 90⟩]

/-- A concrete distance primitive for the clustering counterexample.
For points sharing a meridian the Haversine distance is monotone in the
coordinate differences, so k-means comparisons behave identically. -/
def c8Hav : Rat → Rat → Rat → Rat → Rat :=
  fun la1 lo1 la2 lo2 => |la1 - la2| + |lo1 - lo2|

/-- The strategy selected on the clustering counterexample input. -/
def c8Strategy : StrategyResult :=
  determine_routing_strategy (analyze_cargo_requirements c8Dests) c8Vehicles

/-- One run of the splitter with an explicit `random.sample` outcome. -/
def c8Run (sample : List Dest) : List Route :=
  create_optimized_routes c8Hav [c8Src] c8Dests [] c8Strategy c8Vehicles sample

/-- Claim C8 is false on the code: the geographical-clustering strategy
seeds k-means with `random.sample(destinations, k)`, and two valid
outcomes of that draw — `[c8A, c8D]` and `[c8A, c8B]` — drive the
10-round k-means to different final partitions ({A,B},{C,D} versus
{A},{B,C,D}), so two runs on identical inputs return different route
collections. -/
theorem splitter_nondeterminism_counterexample :
    c8Strategy.strategy = "geographical_clustering" ∧
    isValidSample c8Dests [c8A, c8D] 2 ∧
    isValidSample c8Dests [c8A, c8B] 2 ∧
    (c8Run [c8A, c8D]).map Route.destinations ≠
      (c8Run [c8A, c8B]).map Route.destinations := by
  with_unfolding_all decide

/-- Claim C8, amended: the splitter is a pure function of its inputs
AND the random centroid sample; for the single-route and capacity-based
strategies the sample is never consulted, so those runs are genuinely
deterministic — while under geographical clustering (and the balanced
strategy, which reuses it) the output depends on the sample, see the
counterexample. -/
theorem splitter_sample_independent_strategies (hav : Rat → Rat → Rat → Rat → Rat)
    (sources : List Src) (destinations : List Dest) (m : DMatrix)
    (strat : StrategyResult) (vehicles : List Vehicle) (s1 s2 : List Dest)
    (h : strat.strategy = "single_optimized_route" ∨
      strat.strategy = "capacity_based_splitting") :
    create_optimized_routes hav sources destinations m strat vehicles s1 =
      create_optimized_routes hav sources destinations m strat vehicles s2 := by
  unfold create_optimized_routes
  rcases h with h | h <;> rw [h] <;> simp

/-- Witness for `splitter_sample_independent_strategies` on the
capacity-overflow input with two different samples. -/
theorem splitter_sample_independent_strategies_witness :
    ((determine_routing_strategy (analyze_cargo_requirements c2Dests)
        [c2Vehicle]).strategy = "single_optimized_route" ∨
      (determine_routing_strategy (analyze_cargo_requirements c2Dests)
        [c2Vehicle]).strategy = "capacity_based_splitting") ∧
    create_optimized_routes cHav [c2Src] c2Dests []
        (determine_routing_strategy (analyze_cargo_requirements c2Dests) [c2Vehicle])
        [c2Vehicle] [] =
      create_optimized_routes cHav [c2Src] c2Dests []
        (determine_routing_strategy (analyze_cargo_requirements c2Dests) [c2Vehicle])
        [c2Vehicle] [c2D1] :=
  ⟨Or.inr (by with_unfolding_all decide),
    splitter_sample_independent_strategies cHav [c2Src] c2Dests []
      (determine_routing_strategy (analyze_cargo_requirements c2Dests) [c2Vehicle])
      [c2Vehicle] [] [c2D1]
      (Or.inr (by with_unfolding_all decide))⟩

end Transport
